import Mathlib

/-!
Verification of the multi-terminal session-management core of the Frame
desktop shell.  The development shallowly embeds two source components:

* the PTY Registry (`src/main/ptyManager.js`): the main-process map from
  terminal ids to pseudo-terminal processes, with a hard cap of 9;
* the Session Store (`TerminalManager`, renderer side): the authoritative
  in-process model of terminal sessions — creation, naming, active-session
  pointer, view mode, grid layout, project scoping and per-project
  persistence through `localStorage`.

JavaScript `Map`s are embedded as association lists preserving insertion
order (which is what `Map` iteration order is); `Date.now()` is embedded as
a monotonic clock; `localStorage` is an association list from string keys to
records.  Observable side effects that matter for the claims (bytes written
to a process, notifications emitted to the `onStateChange` observer) are
made explicit: writes are returned as an optional effect value, and the
store carries a counter of `_notifyStateChange` invocations.
-/

namespace Frame

/-- `MAX_TERMINALS` in `ptyManager.js`, `this.maxTerminals` in
`TerminalManager`: both are the literal 9. -/
def maxTerminals : Nat := 9

/-! ## PTY Registry (`src/main/ptyManager.js`) -/

/-- One entry of the `ptyInstances` map: the spawned process is represented
only by the data the registry stores alongside it (`cwd`, `projectPath`);
the process handle itself is opaque. -/
structure PtyInst where
  cwd : Option String
  projectPath : Option String
  deriving Repr, DecidableEq

/-- State of the PTY Registry: the `ptyInstances` map (insertion-ordered
association list keyed by terminal id) and the `terminalCounter` used to
mint fresh ids (`term-${++terminalCounter}` — we keep the numeric part). -/
structure PtyState where
  instances : List (Nat × PtyInst)
  counter : Nat
  deriving Repr, DecidableEq

/-- The registry at module load: empty map, counter 0. -/
def PtyState.initial : PtyState := { instances := [], counter := 0 }

/-- Effects the registry sends to the outside world (to a pty process). -/
inductive PtyEffect where
  | write (id : Nat) (data : String)
  | resize (id : Nat) (cols rows : Nat)
  | kill (id : Nat)
  deriving Repr, DecidableEq

def PtyState.has (s : PtyState) (id : Nat) : Bool :=
  s.instances.any (fun p => decide (p.1 = id))

/-- `createTerminal(workingDir, projectPath)`: throws when the map already
holds `MAX_TERMINALS` entries; otherwise mints `term-${++terminalCounter}`,
resolves `cwd = workingDir || HOME`, spawns, and registers the instance. -/
def ptyCreateTerminal (home : String) (s : PtyState)
    (workingDir projectPath : Option String) : Except String (Nat × PtyState) :=
  if s.instances.length ≥ maxTerminals then
    .error "Maximum terminal limit (9) reached"
  else
    let terminalId := s.counter + 1
    let cwd := workingDir.getD home
    .ok (terminalId,
      { instances := s.instances ++ [(terminalId, { cwd := some cwd, projectPath })],
        counter := terminalId })

/-- `writeToTerminal(terminalId, data)`: forwards the bytes when the id is
registered, otherwise does nothing.  The registry state is returned
unchanged in both cases; the optional effect records whether a write
reached a process. -/
def writeToTerminal (s : PtyState) (id : Nat) (data : String) :
    PtyState × Option PtyEffect :=
  if s.has id then (s, some (.write id data)) else (s, none)

/-- `resizeTerminal(terminalId, cols, rows)`: same silently-ignore-unknown
policy as `writeToTerminal`. -/
def resizeTerminal (s : PtyState) (id : Nat) (cols rows : Nat) :
    PtyState × Option PtyEffect :=
  if s.has id then (s, some (.resize id cols rows)) else (s, none)

/-- `destroyTerminal(terminalId)`: kills the process and deletes the map
entry when the id is registered, otherwise does nothing. -/
def destroyTerminal (s : PtyState) (id : Nat) : PtyState :=
  if s.has id then
    { s with instances := s.instances.filter (fun p => decide (¬ p.1 = id)) }
  else s

/-- `getTerminalCount()`. -/
def getTerminalCount (s : PtyState) : Nat := s.instances.length

/-! ## Session Store (`TerminalManager`, renderer side) -/

/-- The `state` object held for each terminal in `this.terminals`
(`_initializeTerminal`).  `createdAt` is the `Date.now()` tick. -/
structure TermState where
  id : Nat
  name : String
  customName : Option String
  isActive : Bool
  createdAt : Nat
  projectPath : Option String
  deriving Repr, DecidableEq

/-- The display rule `customName ?? name` (nullish coalescing). -/
def displayName (t : TermState) : String := t.customName.getD t.name

/-- The per-scope record written to `localStorage` by
`saveProjectSession`. -/
structure SessionData where
  activeTerminalId : Option Nat
  viewMode : String
  gridLayout : String
  terminalNames : List (Nat × String)
  deriving Repr, DecidableEq

/-- `TerminalManager` state.  `clock` models `Date.now()` (monotonic);
`notifyCount` counts `_notifyStateChange` invocations; `sessions` models the
JSON object stored under the `frame-terminal-sessions` key of
`localStorage`. -/
structure Manager where
  terminals : List TermState
  activeTerminalId : Option Nat
  viewMode : String
  gridLayout : String
  terminalCounter : Nat
  currentProjectPath : Option String
  clock : Nat
  notifyCount : Nat
  sessions : List (String × SessionData)
  deriving Repr, DecidableEq

/-- The constructor state of `TerminalManager`. -/
def Manager.initial : Manager :=
  { terminals := [], activeTerminalId := none, viewMode := "tabs",
    gridLayout := "2x2", terminalCounter := 0, currentProjectPath := none,
    clock := 0, notifyCount := 0, sessions := [] }

/-- `projectPath || GLOBAL_PROJECT_KEY`: the storage key for a scope. -/
def sessionKey (projectPath : Option String) : String :=
  projectPath.getD "__global__"

/-- Property read on the stored JSON object (`allSessions[sessionKey]`). -/
def storeGet (l : List (String × SessionData)) (k : String) : Option SessionData :=
  (l.find? (fun e => decide (e.1 = k))).map (fun e => e.2)

/-- Property write on the stored JSON object
(`allSessions[sessionKey] = sessionData`). -/
def storeSet (l : List (String × SessionData)) (k : String) (v : SessionData) :
    List (String × SessionData) :=
  if l.any (fun e => decide (e.1 = k)) then
    l.map (fun e => if e.1 = k then (k, v) else e)
  else l ++ [(k, v)]

/-- `.sort((a, b) => a.createdAt - b.createdAt)` — a stable sort by
`createdAt`, embedded as insertion sort. -/
def sortByCreatedAt (l : List TermState) : List TermState :=
  l.insertionSort (fun a b => a.createdAt ≤ b.createdAt)

instance : IsTotal TermState (fun a b => a.createdAt ≤ b.createdAt) :=
  ⟨fun a b => Nat.le_total a.createdAt b.createdAt⟩

instance : IsTrans TermState (fun a b => a.createdAt ≤ b.createdAt) :=
  ⟨fun _ _ _ h1 h2 => Nat.le_trans h1 h2⟩

/-- `getTerminalsByProject(projectPath)`: the states of the terminals whose
`projectPath` equals the argument, sorted by `createdAt` ascending. -/
def Manager.getTerminalsByProject (m : Manager) (projectPath : Option String) :
    List TermState :=
  sortByCreatedAt (m.terminals.filter (fun t => decide (t.projectPath = projectPath)))

/-- `_notifyStateChange()`: emits one snapshot to the observer; we record
the emission count. -/
def notifyStateChange (m : Manager) : Manager :=
  { m with notifyCount := m.notifyCount + 1 }

/-- `setActiveTerminal(terminalId)`: clears `isActive` on the previously
pointed-to terminal (when the pointer is set and that terminal is still in
the map), repoints `activeTerminalId`, sets `isActive` on the target (when
it is in the map), and notifies. -/
def setActiveTerminal (m : Manager) (terminalId : Nat) : Manager :=
  let m1 :=
    match m.activeTerminalId with
    | some prev =>
      { m with terminals :=
          m.terminals.map (fun (t : TermState) => if t.id = prev then { t with isActive := false } else t) }
    | none => m
  let m2 := { m1 with activeTerminalId := some terminalId }
  let m3 := { m2 with terminals :=
      m2.terminals.map (fun (t : TermState) => if t.id = terminalId then { t with isActive := true } else t) }
  notifyStateChange m3

/-- `renameTerminal(terminalId, newName)`: when the terminal exists, sets
both `customName` and `name` to the new name, then notifies. -/
def renameTerminal (m : Manager) (terminalId : Nat) (newName : String) : Manager :=
  if m.terminals.any (fun t => decide (t.id = terminalId)) then
    notifyStateChange
      { m with terminals :=
          m.terminals.map (fun (t : TermState) =>
            if t.id = terminalId then { t with customName := some newName, name := newName } else t) }
  else m

/-- `closeTerminal(terminalId)`: when the terminal exists, disposes it,
deletes it from the map (the `TERMINAL_DESTROY` message to the registry is
handled at the system level), and — when the closed terminal was the active
one — repoints `activeTerminalId` at the last remaining map entry (or null)
and reactivates it via `setActiveTerminal`; finally notifies. -/
def closeTerminal (m : Manager) (terminalId : Nat) : Manager :=
  if m.terminals.any (fun t => decide (t.id = terminalId)) then
    let m1 := { m with terminals := m.terminals.filter (fun t => decide (¬ t.id = terminalId)) }
    let m2 :=
      if m1.activeTerminalId = some terminalId then
        match m1.terminals.getLast? with
        | some tLast => setActiveTerminal { m1 with activeTerminalId := some tLast.id } tLast.id
        | none => { m1 with activeTerminalId := none }
      else m1
    notifyStateChange m2
  else m

/-- `setViewMode(mode)`. -/
def setViewMode (m : Manager) (mode : String) : Manager :=
  notifyStateChange { m with viewMode := mode }

/-- `setGridLayout(layout)`. -/
def setGridLayout (m : Manager) (layout : String) : Manager :=
  notifyStateChange { m with gridLayout := layout }

/-- `getTerminalStates()` with the default `allProjects = false`: the
sessions visible for the current scope, sorted by `createdAt`. -/
def getTerminalStates (m : Manager) : List TermState :=
  m.getTerminalsByProject m.currentProjectPath

/-- `saveProjectSession(projectPath)`: skips the write entirely when the
scope has no terminals; otherwise writes `{ activeTerminalId, viewMode,
gridLayout, terminalNames }` under the scope's key, where `terminalNames`
collects the truthy `customName`s of the scope's terminals. -/
def saveProjectSession (m : Manager) (projectPath : Option String) : Manager :=
  let projectTerminals := m.getTerminalsByProject projectPath
  if projectTerminals.length = 0 then m
  else
    let data : SessionData :=
      { activeTerminalId := m.activeTerminalId,
        viewMode := m.viewMode,
        gridLayout := m.gridLayout,
        terminalNames := projectTerminals.filterMap (fun t =>
          t.customName.bind (fun c => if c = "" then none else some (t.id, c))) }
    { m with sessions := storeSet m.sessions (sessionKey projectPath) data }

/-- Lookup in the saved `terminalNames` object, with JavaScript string
truthiness on the value (`sessionData.terminalNames[t.id]`). -/
def namesGet (names : List (Nat × String)) (id : Nat) : Option String :=
  match (names.find? (fun e => decide (e.1 = id))).map (fun e => e.2) with
  | some n => if n = "" then none else some n
  | none => none

/-- The tail of `restoreProjectSession` (source lines 164-170): activate the
first in-scope terminal by `createdAt` order, or clear the pointer when the
scope has none. -/
def restoreFallback (m1 : Manager) (projectPath : Option String) : Manager :=
  match (m1.getTerminalsByProject projectPath).head? with
  | some t => setActiveTerminal m1 t.id
  | none => { m1 with activeTerminalId := none }

/-- The view-settings and custom-name portion of `restoreProjectSession`
(source lines 133-152): reapply `viewMode`/`gridLayout` (string-truthy
guards) and overwrite both `customName` and `name` of every in-scope
terminal that has a saved name. -/
def restoreNames (m : Manager) (projectPath : Option String) : Manager :=
  match storeGet m.sessions (sessionKey projectPath) with
  | some data =>
    let mv := if data.viewMode ≠ "" then { m with viewMode := data.viewMode } else m
    let mg := if data.gridLayout ≠ "" then { mv with gridLayout := data.gridLayout } else mv
    { mg with terminals :=
        mg.terminals.map (fun (t : TermState) =>
          if t.projectPath = projectPath then
            match namesGet data.terminalNames t.id with
            | some n => { t with customName := some n, name := n }
            | none => t
          else t) }
  | none => m

/-- `restoreProjectSession(projectPath)`: when a record is stored for the
scope, reapplies the view settings and custom names (`restoreNames`), then
reactivates the saved `activeTerminalId` when it denotes a live terminal of
this scope (early return).  Otherwise falls back to the first terminal of
the scope in `createdAt` order, or clears the pointer when the scope is
empty (`restoreFallback`). -/
def restoreProjectSession (m : Manager) (projectPath : Option String) : Manager :=
  let m1 := restoreNames m projectPath
  match storeGet m.sessions (sessionKey projectPath) with
  | some data =>
    match data.activeTerminalId with
    | some aid =>
      match m1.terminals.find? (fun t => decide (t.id = aid)) with
      | some t =>
        if t.projectPath = projectPath then setActiveTerminal m1 aid
        else restoreFallback m1 projectPath
      | none => restoreFallback m1 projectPath
    | none => restoreFallback m1 projectPath
  | none => restoreFallback m1 projectPath

/-- The save-if-switching prefix of `setCurrentProject`. -/
def afterSave (m : Manager) (projectPath : Option String) : Manager :=
  if m.currentProjectPath ≠ projectPath then saveProjectSession m m.currentProjectPath
  else m

/-- `setCurrentProject(projectPath)` (the spec's `switchScope`): saves the
outgoing scope when actually switching, repoints `currentProjectPath`,
restores the incoming scope, and notifies. -/
def setCurrentProject (m : Manager) (projectPath : Option String) : Manager :=
  notifyStateChange
    (restoreProjectSession
      { afterSave m projectPath with currentProjectPath := projectPath } projectPath)

/-- `_initializeTerminal(terminalId, options)`: registers the xterm instance
and its state record (fresh `createdAt`, inactive), bumps the name counter
when no explicit name was given, activates the new terminal when it is the
only one or no terminal is active, and notifies. -/
def initializeTerminal (m : Manager) (terminalId : Nat) (optName : Option String)
    (projectPath : Option String) : Manager :=
  let counter1 :=
    match optName with
    | some n => if n = "" then m.terminalCounter + 1 else m.terminalCounter
    | none => m.terminalCounter + 1
  let name :=
    match optName with
    | some n => if n = "" then "Terminal " ++ toString counter1 else n
    | none => "Terminal " ++ toString counter1
  let st : TermState :=
    { id := terminalId, name := name, customName := none, isActive := false,
      createdAt := m.clock, projectPath := projectPath }
  let m1 := { m with terminals := m.terminals ++ [st], terminalCounter := counter1,
                     clock := m.clock + 1 }
  let m2 :=
    if m1.terminals.length = 1 ∨ m1.activeTerminalId = none then
      setActiveTerminal m1 terminalId
    else m1
  notifyStateChange m2

/-- Options of `createTerminal(options)`.  `projectPath` distinguishes the
JavaScript `undefined` (outer `none`) from an explicit `null` (inner
`none`). -/
structure CreateOptions where
  cwd : Option String := none
  projectPath : Option (Option String) := none
  name : Option String := none
  deriving Repr, DecidableEq

/-! ## The combined system: renderer Session Store + main-process registry -/

structure System where
  pty : PtyState
  mgr : Manager
  deriving Repr, DecidableEq

def System.initial : System := { pty := PtyState.initial, mgr := Manager.initial }

/-- The `HOME` used by the registry's cwd fallback; its value is irrelevant
to every claim. -/
def homeDir : String := "/home/user"

/-- `TerminalManager.createTerminal(options)` together with the
`TERMINAL_CREATE` round trip: the renderer rejects at its own cap before
sending; the registry's `createTerminal` may itself throw (replied as a
failure); on success the renderer runs `_initializeTerminal` with the
resolved scope. -/
def createSession (sys : System) (opts : CreateOptions) :
    Except String (Nat × System) :=
  if sys.mgr.terminals.length ≥ maxTerminals then
    .error "Maximum terminal limit reached"
  else
    let projectPath := opts.projectPath.getD sys.mgr.currentProjectPath
    let workingDir :=
      match opts.cwd with
      | some c => if c = "" then projectPath else some c
      | none => projectPath
    match ptyCreateTerminal homeDir sys.pty workingDir projectPath with
    | .error e => .error e
    | .ok (terminalId, pty1) =>
      .ok (terminalId,
        { pty := pty1,
          mgr := initializeTerminal sys.mgr terminalId opts.name projectPath })

/-- The renderer's `TERMINAL_DESTROYED` handler (`_setupIPC`): a
main-process exit event funnels into `closeTerminal` when the terminal is
still tracked. -/
def handleTerminalDestroyed (m : Manager) (terminalId : Nat) : Manager :=
  if m.terminals.any (fun t => decide (t.id = terminalId)) then closeTerminal m terminalId
  else m

/-- The operations the Session Store exposes (plus the unsolicited process
exit event), acting on the combined system. -/
inductive Op where
  | create (opts : CreateOptions)
  | close (id : Nat)
  | setActive (id : Nat)
  | rename (id : Nat) (newName : String)
  | setView (mode : String)
  | setGrid (layout : String)
  | switchScope (projectPath : Option String)
  | ptyExit (id : Nat)
  deriving Repr, DecidableEq

def step (sys : System) : Op → System
  | .create opts =>
    match createSession sys opts with
    | .ok (_, sys1) => sys1
    | .error _ => sys
  | .close id =>
    if sys.mgr.terminals.any (fun t => decide (t.id = id)) then
      { pty := destroyTerminal sys.pty id, mgr := closeTerminal sys.mgr id }
    else sys
  | .setActive id => { sys with mgr := setActiveTerminal sys.mgr id }
  | .rename id n => { sys with mgr := renameTerminal sys.mgr id n }
  | .setView mode => { sys with mgr := setViewMode sys.mgr mode }
  | .setGrid layout => { sys with mgr := setGridLayout sys.mgr layout }
  | .switchScope p => { sys with mgr := setCurrentProject sys.mgr p }
  | .ptyExit id =>
    { pty := destroyTerminal sys.pty id, mgr := handleTerminalDestroyed sys.mgr id }

def run (sys : System) : List Op → System
  | [] => sys
  | op :: ops => run (step sys op) ops

/-! ## Derived notions used by the statements and proofs -/

/-- The per-element effect of `setActiveTerminal`'s first pass (clearing the
previously pointed-to terminal). -/
def deactUpd (prev : Option Nat) (t : TermState) : TermState :=
  match prev with
  | some p => if t.id = p then { t with isActive := false } else t
  | none => t

/-- The per-element effect of `setActiveTerminal`'s second pass (setting the
target terminal active). -/
def actUpd (i : Nat) (t : TermState) : TermState :=
  if t.id = i then { t with isActive := true } else t

/-- The well-formedness invariant of single-scope runs: every session
belongs to the current scope, session ids never exceed the registry
counter (freshness), ids are pairwise distinct, and the `isActive` flags
are exactly the pointer: a null pointer means no sessions, a set pointer
denotes a live session and a session is flagged active precisely when it is
the pointed-to one. -/
def Inv (sys : System) : Prop :=
  (∀ t ∈ sys.mgr.terminals, t.projectPath = sys.mgr.currentProjectPath) ∧
  (∀ t ∈ sys.mgr.terminals, t.id ≤ sys.pty.counter) ∧
  sys.mgr.terminals.Pairwise (fun a b => a.id ≠ b.id) ∧
  (match sys.mgr.activeTerminalId with
   | none => sys.mgr.terminals = []
   | some a => (∃ t ∈ sys.mgr.terminals, t.id = a) ∧
       ∀ t ∈ sys.mgr.terminals, (t.isActive = true ↔ t.id = a))

/-- Systems reachable from the fresh application state by single-scope
Session Store operations: creation in the current scope (no explicit
`projectPath` override), close, activation of a live session, rename, and
the two view setters.  Scope switches and cross-scope creations are
deliberately excluded. -/
inductive ReachS : System → Prop where
  | init : ReachS System.initial
  | create : ∀ {s : System} (cwd nm : Option String), ReachS s →
      ReachS (step s (.create { cwd := cwd, projectPath := none, name := nm }))
  | close : ∀ {s : System} (id : Nat), ReachS s → ReachS (step s (.close id))
  | setActive : ∀ {s : System} (id : Nat), ReachS s →
      (∃ t ∈ s.mgr.terminals, t.id = id) → ReachS (step s (.setActive id))
  | rename : ∀ {s : System} (id : Nat) (n : String), ReachS s →
      ReachS (step s (.rename id n))
  | setView : ∀ {s : System} (mode : String), ReachS s →
      ReachS (step s (.setView mode))
  | setGrid : ∀ {s : System} (layout : String), ReachS s →
      ReachS (step s (.setGrid layout))

/-- A concrete session used by witness statements. -/
def sampleTerm : TermState :=
  { id := 1, name := "Terminal 1", customName := none, isActive := true,
    createdAt := 0, projectPath := none }

/-- A concrete one-session store used by witness statements. -/
def sampleMgr : Manager :=
  { Manager.initial with terminals := [sampleTerm], activeTerminalId := some 1 }

/-- `sampleMgr` with a persisted record for the global scope that names
terminal 1 "Build". -/
def sampleMgrSaved : Manager :=
  { sampleMgr with sessions :=
      [("__global__",
        { activeTerminalId := some 1, viewMode := "tabs", gridLayout := "2x2",
          terminalNames := [(1, "Build")] })] }

/-- Nine default session creations in a row. -/
def nineCreates : List Op := List.replicate 9 (Op.create {})

/-- A store for scope "p" whose persisted record points at the dead session
id 99: two live inactive sessions, no active pointer. -/
def staleMgr : Manager :=
  { Manager.initial with
    terminals := [
      { id := 1, name := "Terminal 1", customName := none, isActive := false,
        createdAt := 0, projectPath := some "p" },
      { id := 2, name := "Terminal 2", customName := none, isActive := false,
        createdAt := 1, projectPath := some "p" }],
    activeTerminalId := none,
    currentProjectPath := some "p",
    sessions := [("p",
      { activeTerminalId := some 99, viewMode := "grid", gridLayout := "2x2",
        terminalNames := [] })] }

/-! ## Helper lemmas -/

theorem actUpd_id (i : Nat) (t : TermState) : (actUpd i t).id = t.id := by
  unfold actUpd; split <;> rfl

theorem actUpd_projectPath (i : Nat) (t : TermState) :
    (actUpd i t).projectPath = t.projectPath := by
  unfold actUpd; split <;> rfl

theorem actUpd_createdAt (i : Nat) (t : TermState) :
    (actUpd i t).createdAt = t.createdAt := by
  unfold actUpd; split <;> rfl

theorem actUpd_name (i : Nat) (t : TermState) : (actUpd i t).name = t.name := by
  unfold actUpd; split <;> rfl

theorem actUpd_customName (i : Nat) (t : TermState) :
    (actUpd i t).customName = t.customName := by
  unfold actUpd; split <;> rfl

theorem deactUpd_id (p : Option Nat) (t : TermState) : (deactUpd p t).id = t.id := by
  unfold deactUpd; cases p with
  | none => rfl
  | some q => dsimp only; split <;> rfl

theorem deactUpd_projectPath (p : Option Nat) (t : TermState) :
    (deactUpd p t).projectPath = t.projectPath := by
  unfold deactUpd; cases p with
  | none => rfl
  | some q => dsimp only; split <;> rfl

theorem deactUpd_createdAt (p : Option Nat) (t : TermState) :
    (deactUpd p t).createdAt = t.createdAt := by
  unfold deactUpd; cases p with
  | none => rfl
  | some q => dsimp only; split <;> rfl

theorem deactUpd_name (p : Option Nat) (t : TermState) :
    (deactUpd p t).name = t.name := by
  unfold deactUpd; cases p with
  | none => rfl
  | some q => dsimp only; split <;> rfl

theorem deactUpd_customName (p : Option Nat) (t : TermState) :
    (deactUpd p t).customName = t.customName := by
  unfold deactUpd; cases p with
  | none => rfl
  | some q => dsimp only; split <;> rfl

/-- `setActiveTerminal` as a single structural update. -/
theorem setActiveTerminal_eq (m : Manager) (i : Nat) :
    setActiveTerminal m i =
      { m with
        terminals := m.terminals.map (fun t => actUpd i (deactUpd m.activeTerminalId t)),
        activeTerminalId := some i,
        notifyCount := m.notifyCount + 1 } := by
  unfold setActiveTerminal notifyStateChange
  cases h : m.activeTerminalId with
  | none =>
    dsimp only
    congr 1
  | some prev =>
    dsimp only
    congr 1
    rw [List.map_map]
    exact List.map_congr_left (fun t _ => rfl)

/-- Mapping an id-preserving function over the terminal list does not
change which ids occur. -/
theorem any_id_of_map {l : List TermState} {f : TermState → TermState}
    (hf : ∀ t, (f t).id = t.id) (j : Nat) :
    (l.map f).any (fun t => decide (t.id = j)) = l.any (fun t => decide (t.id = j)) := by
  induction l with
  | nil => rfl
  | cons x xs ih => simp only [List.map_cons, List.any_cons, hf, ih]

theorem any_id_filter_self (l : List TermState) (j : Nat) :
    ((l.filter (fun t => decide (¬ t.id = j))).any (fun t => decide (t.id = j))) = false := by
  refine List.any_eq_false.mpr ?_
  intro x hx
  have hmem := List.mem_filter.mp hx
  simpa using hmem.2

theorem any_key_filter_self (l : List (Nat × PtyInst)) (j : Nat) :
    ((l.filter (fun p => decide (¬ p.1 = j))).any (fun p => decide (p.1 = j))) = false := by
  refine List.any_eq_false.mpr ?_
  intro x hx
  have hmem := List.mem_filter.mp hx
  simpa using hmem.2

/-- After `closeTerminal m id` the id is gone from the session map. -/
theorem closeTerminal_any_id_false (m : Manager) (id : Nat) :
    (closeTerminal m id).terminals.any (fun t => decide (t.id = id)) =
      (if m.terminals.any (fun t => decide (t.id = id)) = true then false
       else m.terminals.any (fun t => decide (t.id = id))) := by
  by_cases h : m.terminals.any (fun t => decide (t.id = id)) = true
  · rw [if_pos h]
    unfold closeTerminal
    rw [if_pos h]
    dsimp only
    split
    · rename_i hptr
      cases hLast : (m.terminals.filter (fun t => decide (¬ t.id = id))).getLast? with
      | some tl =>
        dsimp only [notifyStateChange]
        rw [setActiveTerminal_eq]
        dsimp only
        rw [any_id_of_map (fun t => (actUpd_id _ _).trans (deactUpd_id _ _))]
        exact any_id_filter_self _ _
      | none =>
        dsimp only [notifyStateChange]
        exact any_id_filter_self _ _
    · dsimp only [notifyStateChange]
      exact any_id_filter_self _ _
  · rw [if_neg h]
    unfold closeTerminal
    rw [if_neg h]

/-- `closeTerminal` on an id that is not in the session map is a no-op. -/
theorem closeTerminal_not_present (m : Manager) (id : Nat)
    (h : m.terminals.any (fun t => decide (t.id = id)) = false) :
    closeTerminal m id = m := by
  unfold closeTerminal
  rw [h]
  rfl

/-- Under a stored record, `restoreNames` rewrites the terminal list by the
per-element custom-name update and touches nothing else of the list. -/
theorem restoreNames_terminals (m : Manager) (projectPath : Option String)
    (d : SessionData) (h : storeGet m.sessions (sessionKey projectPath) = some d) :
    (restoreNames m projectPath).terminals =
      m.terminals.map (fun (t : TermState) =>
        if t.projectPath = projectPath then
          match namesGet d.terminalNames t.id with
          | some n => { t with customName := some n, name := n }
          | none => t
        else t) := by
  unfold restoreNames
  rw [h]
  dsimp only
  split <;> split <;> rfl

/-- Without a stored record, `restoreNames` is the identity. -/
theorem restoreNames_of_none (m : Manager) (projectPath : Option String)
    (h : storeGet m.sessions (sessionKey projectPath) = none) :
    restoreNames m projectPath = m := by
  unfold restoreNames
  rw [h]

/-- `restoreNames` never changes the persisted store. -/
theorem restoreNames_sessions (m : Manager) (projectPath : Option String) :
    (restoreNames m projectPath).sessions = m.sessions := by
  unfold restoreNames
  cases storeGet m.sessions (sessionKey projectPath) with
  | none => rfl
  | some d => dsimp only; split <;> split <;> rfl

/-- Every path of `restoreProjectSession` leaves the terminal list equal to
the `restoreNames` list transformed elementwise by a function that can only
touch the `isActive` flag. -/
theorem restoreProjectSession_terminals (m : Manager) (projectPath : Option String) :
    ∃ g : TermState → TermState,
      (∀ t, (g t).id = t.id ∧ (g t).name = t.name ∧ (g t).customName = t.customName ∧
            (g t).projectPath = t.projectPath ∧ (g t).createdAt = t.createdAt) ∧
      (restoreProjectSession m projectPath).terminals =
        (restoreNames m projectPath).terminals.map g := by
  have hid : ∀ (prev : Option Nat) (i : Nat) (t : TermState),
      (actUpd i (deactUpd prev t)).id = t.id ∧
      (actUpd i (deactUpd prev t)).name = t.name ∧
      (actUpd i (deactUpd prev t)).customName = t.customName ∧
      (actUpd i (deactUpd prev t)).projectPath = t.projectPath ∧
      (actUpd i (deactUpd prev t)).createdAt = t.createdAt := by
    intro prev i t
    exact ⟨(actUpd_id _ _).trans (deactUpd_id _ _),
           (actUpd_name _ _).trans (deactUpd_name _ _),
           (actUpd_customName _ _).trans (deactUpd_customName _ _),
           (actUpd_projectPath _ _).trans (deactUpd_projectPath _ _),
           (actUpd_createdAt _ _).trans (deactUpd_createdAt _ _)⟩
  have hfall : ∀ m1 : Manager, ∃ g : TermState → TermState,
      (∀ t, (g t).id = t.id ∧ (g t).name = t.name ∧ (g t).customName = t.customName ∧
            (g t).projectPath = t.projectPath ∧ (g t).createdAt = t.createdAt) ∧
      (restoreFallback m1 projectPath).terminals = m1.terminals.map g := by
    intro m1
    unfold restoreFallback
    cases (m1.getTerminalsByProject projectPath).head? with
    | some t =>
      refine ⟨fun u => actUpd t.id (deactUpd m1.activeTerminalId u), hid _ _, ?_⟩
      dsimp only
      rw [setActiveTerminal_eq]
    | none =>
      exact ⟨fun u => u, fun t => ⟨rfl, rfl, rfl, rfl, rfl⟩, (List.map_id _).symm⟩
  unfold restoreProjectSession
  cases hst : storeGet m.sessions (sessionKey projectPath) with
  | none => exact hfall _
  | some d =>
    dsimp only
    cases d.activeTerminalId with
    | none => exact hfall _
    | some aid =>
      dsimp only
      cases (restoreNames m projectPath).terminals.find? (fun t => decide (t.id = aid)) with
      | none => exact hfall _
      | some t =>
        dsimp only
        split
        · refine ⟨fun u => actUpd aid (deactUpd (restoreNames m projectPath).activeTerminalId u),
            hid _ _, ?_⟩
          rw [setActiveTerminal_eq]
        · exact hfall _

theorem destroyTerminal_length_le (s : PtyState) (id : Nat) :
    (destroyTerminal s id).instances.length ≤ s.instances.length := by
  unfold destroyTerminal
  split
  · exact List.length_filter_le _ _
  · exact Nat.le_refl _

theorem initializeTerminal_length (m : Manager) (tid : Nat) (nm : Option String)
    (pp : Option String) :
    (initializeTerminal m tid nm pp).terminals.length = m.terminals.length + 1 := by
  unfold initializeTerminal
  dsimp only [notifyStateChange]
  split
  · rw [setActiveTerminal_eq]
    simp
  · simp

theorem closeTerminal_length_le (m : Manager) (id : Nat) :
    (closeTerminal m id).terminals.length ≤ m.terminals.length := by
  unfold closeTerminal
  by_cases h : m.terminals.any (fun t => decide (t.id = id)) = true
  · rw [if_pos h]
    dsimp only [notifyStateChange]
    split
    · cases hLast : (m.terminals.filter (fun t => decide (¬ t.id = id))).getLast? with
      | some tl =>
        dsimp only
        rw [setActiveTerminal_eq]
        dsimp only
        rw [List.length_map]
        exact List.length_filter_le _ _
      | none =>
        dsimp only
        exact List.length_filter_le _ _
    · exact List.length_filter_le _ _
  · rw [if_neg h]

theorem renameTerminal_length (m : Manager) (id : Nat) (n : String) :
    (renameTerminal m id n).terminals.length = m.terminals.length := by
  unfold renameTerminal
  split
  · dsimp only [notifyStateChange]
    exact List.length_map _ _
  · rfl

theorem saveProjectSession_terminals (m : Manager) (projectPath : Option String) :
    (saveProjectSession m projectPath).terminals = m.terminals := by
  unfold saveProjectSession
  dsimp only
  split <;> rfl

theorem restoreNames_length (m : Manager) (projectPath : Option String) :
    (restoreNames m projectPath).terminals.length = m.terminals.length := by
  cases h : storeGet m.sessions (sessionKey projectPath) with
  | none => rw [restoreNames_of_none m projectPath h]
  | some d => rw [restoreNames_terminals m projectPath d h, List.length_map]

theorem restoreProjectSession_length (m : Manager) (projectPath : Option String) :
    (restoreProjectSession m projectPath).terminals.length = m.terminals.length := by
  obtain ⟨g, _, hgt⟩ := restoreProjectSession_terminals m projectPath
  rw [hgt, List.length_map, restoreNames_length]

theorem setCurrentProject_length (m : Manager) (projectPath : Option String) :
    (setCurrentProject m projectPath).terminals.length = m.terminals.length := by
  unfold setCurrentProject
  dsimp only [notifyStateChange]
  rw [restoreProjectSession_length]
  show (afterSave m projectPath).terminals.length = m.terminals.length
  unfold afterSave
  split
  · rw [saveProjectSession_terminals]
  · rfl

/-- Inversion of a successful `createSession`. -/
theorem createSession_ok (sys : System) (opts : CreateOptions) (id : Nat) (sys1 : System)
    (h : createSession sys opts = .ok (id, sys1)) :
    sys.mgr.terminals.length < maxTerminals ∧
    sys.pty.instances.length < maxTerminals ∧
    id = sys.pty.counter + 1 ∧
    sys1.mgr = initializeTerminal sys.mgr id opts.name
      (opts.projectPath.getD sys.mgr.currentProjectPath) ∧
    sys1.pty.instances.length = sys.pty.instances.length + 1 ∧
    sys1.pty.counter = sys.pty.counter + 1 := by
  unfold createSession at h
  by_cases h1 : sys.mgr.terminals.length ≥ maxTerminals
  · rw [if_pos h1] at h
    cases h
  · rw [if_neg h1] at h
    unfold ptyCreateTerminal at h
    dsimp only at h
    by_cases h2 : sys.pty.instances.length ≥ maxTerminals
    · rw [if_pos h2] at h
      cases h
    · rw [if_neg h2] at h
      dsimp only at h
      rw [Except.ok.injEq, Prod.mk.injEq] at h
      obtain ⟨hid, hsys⟩ := h
      subst hid
      subst hsys
      refine ⟨Nat.lt_of_not_le h1, Nat.lt_of_not_le h2, rfl, rfl, ?_, rfl⟩
      simp

/-- A successful creation step lands in the returned system. -/
theorem step_create_ok (sys : System) (opts : CreateOptions) (id : Nat) (sys1 : System)
    (h : createSession sys opts = .ok (id, sys1)) : step sys (.create opts) = sys1 := by
  unfold step
  dsimp only
  rw [h]

/-- A failed creation step leaves the system unchanged. -/
theorem step_create_error (sys : System) (opts : CreateOptions) (e : String)
    (h : createSession sys opts = .error e) : step sys (.create opts) = sys := by
  unfold step
  dsimp only
  rw [h]

/-- Each operation keeps both session maps at or below the cap. -/
theorem step_cap (sys : System) (op : Op)
    (hm : sys.mgr.terminals.length ≤ maxTerminals)
    (hp : sys.pty.instances.length ≤ maxTerminals) :
    (step sys op).mgr.terminals.length ≤ maxTerminals ∧
    (step sys op).pty.instances.length ≤ maxTerminals := by
  cases op with
  | create opts =>
    cases hc : createSession sys opts with
    | error e =>
      rw [step_create_error sys opts e hc]
      exact ⟨hm, hp⟩
    | ok pr =>
      obtain ⟨id, sys1⟩ := pr
      rw [step_create_ok sys opts id sys1 hc]
      obtain ⟨h1, h2, _, hmgr, hplen, _⟩ := createSession_ok sys opts id sys1 hc
      constructor
      · rw [hmgr, initializeTerminal_length]
        omega
      · rw [hplen]
        omega
  | close id =>
    simp only [step]
    split
    · exact ⟨Nat.le_trans (closeTerminal_length_le _ _) hm,
             Nat.le_trans (destroyTerminal_length_le _ _) hp⟩
    · exact ⟨hm, hp⟩
  | setActive id =>
    simp only [step]
    refine ⟨?_, hp⟩
    rw [setActiveTerminal_eq]
    simpa using hm
  | rename id n =>
    simp only [step]
    refine ⟨?_, hp⟩
    rw [renameTerminal_length]
    exact hm
  | setView mode => exact ⟨hm, hp⟩
  | setGrid layout => exact ⟨hm, hp⟩
  | switchScope p =>
    simp only [step]
    refine ⟨?_, hp⟩
    rw [setCurrentProject_length]
    exact hm
  | ptyExit id =>
    simp only [step]
    refine ⟨?_, Nat.le_trans (destroyTerminal_length_le _ _) hp⟩
    unfold handleTerminalDestroyed
    split
    · exact Nat.le_trans (closeTerminal_length_le _ _) hm
    · exact hm

theorem run_cap (ops : List Op) : ∀ sys : System,
    sys.mgr.terminals.length ≤ maxTerminals →
    sys.pty.instances.length ≤ maxTerminals →
    (run sys ops).mgr.terminals.length ≤ maxTerminals ∧
    (run sys ops).pty.instances.length ≤ maxTerminals := by
  induction ops with
  | nil => exact fun sys hm hp => ⟨hm, hp⟩
  | cons op ops ih =>
    intro sys hm hp
    obtain ⟨hm1, hp1⟩ := step_cap sys op hm hp
    exact ih (step sys op) hm1 hp1

theorem map_eq_self_of {α : Type} (l : List α) (f : α → α) (h : ∀ a ∈ l, f a = a) :
    l.map f = l :=
  (List.map_congr_left h).trans (List.map_id l)

/-- When the store already has sessions and an active pointer,
`_initializeTerminal` appends the new session inactive and does not touch
the pointer; exactly one notification fires. -/
theorem initializeTerminal_inactive (m : Manager) (tid : Nat) (nm : Option String)
    (pp : Option String) (hne : ¬ m.terminals = []) (hptr : ¬ m.activeTerminalId = none) :
    ∃ st : TermState,
      (initializeTerminal m tid nm pp).terminals = m.terminals ++ [st] ∧
      st.id = tid ∧ st.isActive = false ∧ st.projectPath = pp ∧
      (initializeTerminal m tid nm pp).activeTerminalId = m.activeTerminalId ∧
      (initializeTerminal m tid nm pp).notifyCount = m.notifyCount + 1 := by
  unfold initializeTerminal
  dsimp only [notifyStateChange]
  rw [if_neg]
  · exact ⟨_, rfl, rfl, rfl, rfl, rfl, rfl⟩
  · push_neg
    constructor
    · intro hx
      rw [List.length_append] at hx
      simp only [List.length_singleton] at hx
      exact hne (List.length_eq_zero.mp (by omega))
    · exact hptr

/-- When the store is empty or has no active pointer, `_initializeTerminal`
appends the new session, immediately activates it, and notifies twice (once
from `setActiveTerminal`, once itself). -/
theorem initializeTerminal_active (m : Manager) (tid : Nat) (nm : Option String)
    (pp : Option String) (hfresh : ∀ t ∈ m.terminals, ¬ t.id = tid)
    (hc : m.terminals = [] ∨ m.activeTerminalId = none) :
    ∃ st : TermState,
      (initializeTerminal m tid nm pp).terminals = m.terminals ++ [st] ∧
      st.id = tid ∧ st.isActive = true ∧ st.projectPath = pp ∧
      (initializeTerminal m tid nm pp).activeTerminalId = some tid ∧
      (initializeTerminal m tid nm pp).notifyCount = m.notifyCount + 2 := by
  unfold initializeTerminal
  dsimp only [notifyStateChange]
  rw [if_pos]
  · rw [setActiveTerminal_eq]
    dsimp only
    rw [List.map_append]
    rcases hc with hemp | hnone
    · rw [hemp]
      dsimp only [List.map_nil, List.nil_append, List.map_cons]
      refine ⟨_, rfl, ?_, ?_, ?_, rfl, rfl⟩
      · rw [actUpd_id, deactUpd_id]
      · show (actUpd tid (deactUpd m.activeTerminalId _)).isActive = true
        cases hp : m.activeTerminalId with
        | none =>
          unfold deactUpd actUpd
          dsimp only
          rw [if_pos rfl]
        | some p =>
          unfold deactUpd actUpd
          dsimp only
          split <;> rw [if_pos rfl]
      · rw [actUpd_projectPath, deactUpd_projectPath]
    · rw [hnone]
      have hold : m.terminals.map (fun t => actUpd tid (deactUpd none t)) = m.terminals :=
        map_eq_self_of _ _ (fun t ht => by
          show actUpd tid t = t
          unfold actUpd
          rw [if_neg (hfresh t ht)])
      rw [hold]
      refine ⟨_, rfl, ?_, ?_, ?_, rfl, rfl⟩
      · rw [actUpd_id, deactUpd_id]
      · show (actUpd tid (deactUpd none _)).isActive = true
        unfold deactUpd actUpd
        dsimp only
        rw [if_pos rfl]
      · rw [actUpd_projectPath, deactUpd_projectPath]
  · rcases hc with hemp | hnone
    · left
      rw [hemp]
      rfl
    · right
      exact hnone

theorem saveProjectSession_notifyCount (m : Manager) (projectPath : Option String) :
    (saveProjectSession m projectPath).notifyCount = m.notifyCount := by
  unfold saveProjectSession
  dsimp only
  split <;> rfl

theorem restoreNames_notifyCount (m : Manager) (projectPath : Option String) :
    (restoreNames m projectPath).notifyCount = m.notifyCount := by
  unfold restoreNames
  cases storeGet m.sessions (sessionKey projectPath) with
  | none => rfl
  | some d => dsimp only; split <;> split <;> rfl

theorem restoreFallback_notifyCount (m1 : Manager) (projectPath : Option String) :
    (restoreFallback m1 projectPath).notifyCount = m1.notifyCount ∨
    (restoreFallback m1 projectPath).notifyCount = m1.notifyCount + 1 := by
  unfold restoreFallback
  cases (m1.getTerminalsByProject projectPath).head? with
  | some t =>
    right
    dsimp only
    rw [setActiveTerminal_eq]
  | none => left; rfl

theorem restoreProjectSession_notifyCount (m : Manager) (projectPath : Option String) :
    (restoreProjectSession m projectPath).notifyCount = m.notifyCount ∨
    (restoreProjectSession m projectPath).notifyCount = m.notifyCount + 1 := by
  have hb : (restoreNames m projectPath).notifyCount = m.notifyCount :=
    restoreNames_notifyCount m projectPath
  unfold restoreProjectSession
  cases storeGet m.sessions (sessionKey projectPath) with
  | none =>
    rcases restoreFallback_notifyCount (restoreNames m projectPath) projectPath with h | h
    · left; rw [h, hb]
    · right; rw [h, hb]
  | some d =>
    dsimp only
    cases d.activeTerminalId with
    | none =>
      rcases restoreFallback_notifyCount (restoreNames m projectPath) projectPath with h | h
      · left; rw [h, hb]
      · right; rw [h, hb]
    | some aid =>
      dsimp only
      cases (restoreNames m projectPath).terminals.find? (fun t => decide (t.id = aid)) with
      | none =>
        rcases restoreFallback_notifyCount (restoreNames m projectPath) projectPath with h | h
        · left; rw [h, hb]
        · right; rw [h, hb]
      | some t =>
        dsimp only
        split
        · right
          rw [setActiveTerminal_eq]
          dsimp only
          rw [hb]
        · rcases restoreFallback_notifyCount (restoreNames m projectPath) projectPath with h | h
          · left; rw [h, hb]
          · right; rw [h, hb]

theorem setCurrentProject_notifyCount (m : Manager) (projectPath : Option String) :
    (setCurrentProject m projectPath).notifyCount = m.notifyCount + 1 ∨
    (setCurrentProject m projectPath).notifyCount = m.notifyCount + 2 := by
  have hsave : (afterSave m projectPath).notifyCount = m.notifyCount := by
    unfold afterSave
    split
    · exact saveProjectSession_notifyCount m m.currentProjectPath
    · rfl
  unfold setCurrentProject
  dsimp only [notifyStateChange]
  rcases restoreProjectSession_notifyCount
      { afterSave m projectPath with currentProjectPath := projectPath } projectPath with h | h
  · left
    rw [h]
    show (afterSave m projectPath).notifyCount + 1 = m.notifyCount + 1
    rw [hsave]
  · right
    rw [h]
    show (afterSave m projectPath).notifyCount + 1 + 1 = m.notifyCount + 2
    rw [hsave]

theorem closeTerminal_notifyCount (m : Manager) (id : Nat)
    (hlive : m.terminals.any (fun t => decide (t.id = id)) = true) :
    (closeTerminal m id).notifyCount = m.notifyCount +
      (if m.activeTerminalId = some id ∧
          m.terminals.filter (fun t => decide (¬ t.id = id)) ≠ [] then 2 else 1) := by
  unfold closeTerminal
  rw [if_pos hlive]
  dsimp only [notifyStateChange]
  by_cases hptr : m.activeTerminalId = some id
  · rw [if_pos hptr]
    cases hLast : (m.terminals.filter (fun t => decide (¬ t.id = id))).getLast? with
    | some tl =>
      dsimp only
      rw [setActiveTerminal_eq]
      dsimp only
      rw [if_pos ⟨hptr, by
        intro hnil
        rw [hnil] at hLast
        cases hLast⟩]
    | none =>
      dsimp only
      have hnil : m.terminals.filter (fun t => decide (¬ t.id = id)) = [] :=
        List.getLast?_eq_none_iff.mp hLast
      rw [if_neg (by
        intro hand
        exact hand.2 hnil)]
  · rw [if_neg hptr]
    rw [if_neg (by
      intro hand
      exact hptr hand.1)]

/-- The custom-name update applied by `restoreNames` never touches `id`,
`projectPath` or `createdAt`. -/
theorem nameUpd_fields (projectPath : Option String) (d : SessionData) (u : TermState) :
    ((if u.projectPath = projectPath then
        match namesGet d.terminalNames u.id with
        | some n => { u with customName := some n, name := n }
        | none => u
      else u) : TermState).projectPath = u.projectPath ∧
    ((if u.projectPath = projectPath then
        match namesGet d.terminalNames u.id with
        | some n => { u with customName := some n, name := n }
        | none => u
      else u) : TermState).id = u.id ∧
    ((if u.projectPath = projectPath then
        match namesGet d.terminalNames u.id with
        | some n => { u with customName := some n, name := n }
        | none => u
      else u) : TermState).createdAt = u.createdAt := by
  split
  · cases namesGet d.terminalNames u.id <;> exact ⟨rfl, rfl, rfl⟩
  · exact ⟨rfl, rfl, rfl⟩

/-- Filtering by scope and sorting by creation time commutes with any
per-element update that preserves `projectPath` and `createdAt`. -/
theorem sortFilter_map (l : List TermState) (f : TermState → TermState)
    (h1 : ∀ t, (f t).projectPath = t.projectPath)
    (h2 : ∀ t, (f t).createdAt = t.createdAt) (p : Option String) :
    sortByCreatedAt ((l.map f).filter (fun t => decide (t.projectPath = p))) =
      (sortByCreatedAt (l.filter (fun t => decide (t.projectPath = p)))).map f := by
  have hfil : (l.map f).filter (fun t => decide (t.projectPath = p)) =
      (l.filter (fun t => decide (t.projectPath = p))).map f := by
    rw [List.map_filter]
    congr 1
    exact List.filter_congr (fun t _ => by simp [Function.comp, h1])
  rw [hfil]
  unfold sortByCreatedAt
  exact (List.map_insertionSort _ _ f _ (fun a _ b _ => by rw [h2 a, h2 b])).symm

/-- When the persisted `activeSessionId` of the target scope does not
denote a live terminal of that scope, `restoreProjectSession` reduces to
its fallback. -/
theorem restore_stale (M0 : Manager) (projectPath : Option String)
    (hstale : ∀ d aid, storeGet M0.sessions (sessionKey projectPath) = some d →
      d.activeTerminalId = some aid →
      ∀ t ∈ M0.terminals, t.id = aid → ¬ t.projectPath = projectPath) :
    restoreProjectSession M0 projectPath =
      restoreFallback (restoreNames M0 projectPath) projectPath := by
  unfold restoreProjectSession
  cases hst : storeGet M0.sessions (sessionKey projectPath) with
  | none => rfl
  | some d =>
    dsimp only
    cases had : d.activeTerminalId with
    | none => rfl
    | some aid =>
      dsimp only
      cases hfind : (restoreNames M0 projectPath).terminals.find?
          (fun t => decide (t.id = aid)) with
      | none => rfl
      | some t =>
        dsimp only
        rw [if_neg ?hne]
        case hne =>
          have hmem := List.mem_of_find?_eq_some hfind
          have htid : t.id = aid := by simpa using List.find?_some hfind
          rw [restoreNames_terminals M0 projectPath d hst] at hmem
          obtain ⟨t0, ht0, hft⟩ := List.mem_map.mp hmem
          obtain ⟨hpp, hip, _⟩ := nameUpd_fields projectPath d t0
          intro hp
          refine hstale d aid hst had t0 ht0 ?_ ?_
          · rw [← hip, hft, htid]
          · rw [← hpp, hft]
            exact hp

theorem destroyTerminal_counter (s : PtyState) (id : Nat) :
    (destroyTerminal s id).counter = s.counter := by
  unfold destroyTerminal
  split <;> rfl

theorem initializeTerminal_currentProjectPath (m : Manager) (tid : Nat)
    (nm : Option String) (pp : Option String) :
    (initializeTerminal m tid nm pp).currentProjectPath = m.currentProjectPath := by
  unfold initializeTerminal
  dsimp only [notifyStateChange]
  split
  · rw [setActiveTerminal_eq]
  · rfl

/-! ### Preservation of the single-scope invariant -/

theorem inv_setView {sys : System} (hInv : Inv sys) (mode : String) :
    Inv (step sys (.setView mode)) := hInv

theorem inv_setGrid {sys : System} (hInv : Inv sys) (layout : String) :
    Inv (step sys (.setGrid layout)) := hInv

theorem inv_rename {sys : System} (hInv : Inv sys) (id : Nat) (n : String) :
    Inv (step sys (.rename id n)) := by
  obtain ⟨hscope, hids, hpw, hcoh⟩ := hInv
  show Inv { sys with mgr := renameTerminal sys.mgr id n }
  unfold renameTerminal
  split
  · dsimp only [notifyStateChange]
    have hfid : ∀ u : TermState,
        ((if u.id = id then { u with customName := some n, name := n } else u) :
          TermState).id = u.id := by
      intro u
      split <;> rfl
    have hfpp : ∀ u : TermState,
        ((if u.id = id then { u with customName := some n, name := n } else u) :
          TermState).projectPath = u.projectPath := by
      intro u
      split <;> rfl
    have hfact : ∀ u : TermState,
        ((if u.id = id then { u with customName := some n, name := n } else u) :
          TermState).isActive = u.isActive := by
      intro u
      split <;> rfl
    refine ⟨?_, ?_, ?_, ?_⟩
    · intro t ht
      obtain ⟨u, hu, rfl⟩ := List.mem_map.mp ht
      rw [hfpp u]
      exact hscope u hu
    · intro t ht
      obtain ⟨u, hu, rfl⟩ := List.mem_map.mp ht
      rw [hfid u]
      exact hids u hu
    · rw [List.pairwise_map]
      refine hpw.imp ?_
      intro a b hab
      rw [hfid a, hfid b]
      exact hab
    · show (match sys.mgr.activeTerminalId with
        | none => (sys.mgr.terminals.map _) = []
        | some a => _)
      cases hptr : sys.mgr.activeTerminalId with
      | none =>
        rw [hptr] at hcoh
        have hnil : sys.mgr.terminals = [] := hcoh
        rw [hnil]
        rfl
      | some a =>
        rw [hptr] at hcoh
        obtain ⟨⟨t0, ht0, ht0a⟩, hall⟩ :=
          (hcoh : (∃ t ∈ sys.mgr.terminals, t.id = a) ∧
            ∀ t ∈ sys.mgr.terminals, (t.isActive = true ↔ t.id = a))
        refine ⟨⟨_, List.mem_map.mpr ⟨t0, ht0, rfl⟩, by rw [hfid t0]; exact ht0a⟩, ?_⟩
        intro t ht
        obtain ⟨u, hu, rfl⟩ := List.mem_map.mp ht
        rw [hfid u, hfact u]
        exact hall u hu
  · exact ⟨hscope, hids, hpw, hcoh⟩

theorem inv_setActive {sys : System} (hInv : Inv sys) (id : Nat)
    (hw : ∃ t ∈ sys.mgr.terminals, t.id = id) :
    Inv (step sys (.setActive id)) := by
  obtain ⟨hscope, hids, hpw, hcoh⟩ := hInv
  obtain ⟨tw, htw, htwid⟩ := hw
  show Inv { sys with mgr := setActiveTerminal sys.mgr id }
  rw [setActiveTerminal_eq]
  refine ⟨?_, ?_, ?_, ?_⟩
  · intro t ht
    obtain ⟨u, hu, rfl⟩ := List.mem_map.mp ht
    rw [actUpd_projectPath, deactUpd_projectPath]
    exact hscope u hu
  · intro t ht
    obtain ⟨u, hu, rfl⟩ := List.mem_map.mp ht
    rw [actUpd_id, deactUpd_id]
    exact hids u hu
  · rw [List.pairwise_map]
    refine hpw.imp ?_
    intro a b hab
    rw [actUpd_id, deactUpd_id, actUpd_id, deactUpd_id]
    exact hab
  · refine ⟨⟨actUpd id (deactUpd sys.mgr.activeTerminalId tw),
      List.mem_map.mpr ⟨tw, htw, rfl⟩, by rw [actUpd_id, deactUpd_id]; exact htwid⟩, ?_⟩
    intro t ht
    obtain ⟨u, hu, rfl⟩ := List.mem_map.mp ht
    rw [actUpd_id, deactUpd_id]
    by_cases hui : u.id = id
    · have hact : (actUpd id (deactUpd sys.mgr.activeTerminalId u)).isActive = true := by
        unfold actUpd
        rw [if_pos (by rw [deactUpd_id]; exact hui)]
      rw [hact]
      simp [hui]
    · have hact : (actUpd id (deactUpd sys.mgr.activeTerminalId u)).isActive =
          (deactUpd sys.mgr.activeTerminalId u).isActive := by
        unfold actUpd
        rw [if_neg (by rw [deactUpd_id]; exact hui)]
      rw [hact]
      cases hptr : sys.mgr.activeTerminalId with
      | none =>
        rw [hptr] at hcoh
        have hnil : sys.mgr.terminals = [] := hcoh
        rw [hnil] at hu
        cases hu
      | some a =>
        rw [hptr] at hcoh
        obtain ⟨_, hall⟩ := (hcoh : (∃ t ∈ sys.mgr.terminals, t.id = a) ∧
          ∀ t ∈ sys.mgr.terminals, (t.isActive = true ↔ t.id = a))
        unfold deactUpd
        dsimp only
        by_cases hua : u.id = a
        · rw [if_pos hua]
          exact iff_of_false (by simp) hui
        · rw [if_neg hua]
          have hfalse : u.isActive = false := by
            cases hb : u.isActive with
            | false => rfl
            | true => exact absurd ((hall u hu).mp hb) hua
          rw [hfalse]
          exact iff_of_false (by simp) hui

theorem inv_close {sys : System} (hInv : Inv sys) (id : Nat) :
    Inv (step sys (.close id)) := by
  obtain ⟨hscope, hids, hpw, hcoh⟩ := hInv
  simp only [step]
  split
  case isFalse => exact ⟨hscope, hids, hpw, hcoh⟩
  case isTrue h =>
    cases hptr : sys.mgr.activeTerminalId with
    | none =>
      rw [hptr] at hcoh
      have hnil : sys.mgr.terminals = [] := hcoh
      rw [hnil] at h
      cases h
    | some a =>
      rw [hptr] at hcoh
      obtain ⟨⟨t0, ht0, ht0a⟩, hall⟩ := (hcoh : (∃ t ∈ sys.mgr.terminals, t.id = a) ∧
        ∀ t ∈ sys.mgr.terminals, (t.isActive = true ↔ t.id = a))
      unfold closeTerminal
      rw [if_pos h]
      dsimp only [notifyStateChange]
      by_cases hai : a = id
      · rw [if_pos (by rw [hptr, hai])]
        cases hLast : (sys.mgr.terminals.filter (fun t => decide (¬ t.id = id))).getLast? with
        | none =>
          have hnil : sys.mgr.terminals.filter (fun t => decide (¬ t.id = id)) = [] :=
            List.getLast?_eq_none_iff.mp hLast
          dsimp only
          refine ⟨?_, ?_, ?_, ?_⟩
          · intro t ht
            rw [hnil] at ht
            cases ht
          · intro t ht
            rw [hnil] at ht
            cases ht
          · rw [hnil]
            exact List.Pairwise.nil
          · exact hnil
        | some tl =>
          have htlmem : tl ∈ sys.mgr.terminals.filter (fun t => decide (¬ t.id = id)) := by
            obtain ⟨l2, hl2⟩ := List.getLast?_eq_some_iff.mp hLast
            rw [hl2]
            exact List.mem_append.mpr (Or.inr (List.mem_singleton.mpr rfl))
          dsimp only
          rw [setActiveTerminal_eq]
          dsimp only
          refine ⟨?_, ?_, ?_, ?_⟩
          · intro t ht
            obtain ⟨u, hu, rfl⟩ := List.mem_map.mp ht
            rw [actUpd_projectPath, deactUpd_projectPath]
            exact hscope u (List.mem_filter.mp hu).1
          · intro t ht
            obtain ⟨u, hu, rfl⟩ := List.mem_map.mp ht
            rw [actUpd_id, deactUpd_id, destroyTerminal_counter]
            exact hids u (List.mem_filter.mp hu).1
          · rw [List.pairwise_map]
            refine (hpw.sublist (List.filter_sublist _)).imp ?_
            intro x y hxy
            rw [actUpd_id, deactUpd_id, actUpd_id, deactUpd_id]
            exact hxy
          · refine ⟨⟨actUpd tl.id (deactUpd (some tl.id) tl),
              List.mem_map.mpr ⟨tl, htlmem, rfl⟩, by rw [actUpd_id, deactUpd_id]⟩, ?_⟩
            intro t ht
            obtain ⟨u, hu, rfl⟩ := List.mem_map.mp ht
            rw [actUpd_id, deactUpd_id]
            by_cases hutl : u.id = tl.id
            · have hact : (actUpd tl.id (deactUpd (some tl.id) u)).isActive = true := by
                unfold actUpd
                rw [if_pos (by rw [deactUpd_id]; exact hutl)]
              rw [hact]
              simp [hutl]
            · have hact : (actUpd tl.id (deactUpd (some tl.id) u)).isActive =
                  u.isActive := by
                unfold actUpd deactUpd
                dsimp only
                rw [if_neg hutl, if_neg hutl]
              rw [hact]
              have hunid : ¬ u.id = id := by
                have := (List.mem_filter.mp hu).2
                simpa using this
              have hfalse : u.isActive = false := by
                cases hb : u.isActive with
                | false => rfl
                | true =>
                  have := (hall u (List.mem_filter.mp hu).1).mp hb
                  rw [hai] at this
                  exact absurd this hunid
              rw [hfalse]
              exact iff_of_false (by simp) hutl
      · rw [if_neg (by rw [hptr]; intro hx; exact hai (Option.some.inj hx))]
        refine ⟨?_, ?_, ?_, ?_⟩
        · intro t ht
          exact hscope t (List.mem_filter.mp ht).1
        · intro t ht
          rw [destroyTerminal_counter]
          exact hids t (List.mem_filter.mp ht).1
        · exact hpw.sublist (List.filter_sublist _)
        · rw [hptr]
          refine ⟨⟨t0, ?_, ht0a⟩, ?_⟩
          · refine List.mem_filter.mpr ⟨ht0, ?_⟩
            simp only [decide_eq_true_eq]
            rw [ht0a]
            exact fun hx => hai hx
          · intro t ht
            exact hall t (List.mem_filter.mp ht).1

theorem inv_create {sys : System} (hInv : Inv sys) (cwd nm : Option String) :
    Inv (step sys (.create { cwd := cwd, projectPath := none, name := nm })) := by
  obtain ⟨hscope, hids, hpw, hcoh⟩ := hInv
  cases hc : createSession sys { cwd := cwd, projectPath := none, name := nm } with
  | error e =>
    rw [step_create_error _ _ _ hc]
    exact ⟨hscope, hids, hpw, hcoh⟩
  | ok pr =>
    obtain ⟨id, sys1⟩ := pr
    rw [step_create_ok _ _ _ _ hc]
    obtain ⟨h1, h2, hid, hmgr, hplen, hpcnt⟩ := createSession_ok _ _ _ _ hc
    cases hptr : sys.mgr.activeTerminalId with
    | none =>
      rw [hptr] at hcoh
      have hnil : sys.mgr.terminals = [] := hcoh
      have hfresh2 : ∀ t ∈ sys.mgr.terminals, ¬ t.id = id := by
        rw [hnil]
        intro t ht
        cases ht
      obtain ⟨st, hh1, hh2, hh3, hh4, hh5, _⟩ :=
        initializeTerminal_active sys.mgr id nm
          ((none : Option (Option String)).getD sys.mgr.currentProjectPath)
          hfresh2 (Or.inr hptr)
      refine ⟨?_, ?_, ?_, ?_⟩
      · intro t ht
        rw [hmgr] at ht ⊢
        rw [hh1, hnil] at ht
        rw [initializeTerminal_currentProjectPath]
        rcases List.mem_append.mp ht with hx | hx
        · cases hx
        · rw [List.mem_singleton.mp hx]
          exact hh4
      · intro t ht
        rw [hmgr] at ht
        rw [hh1, hnil] at ht
        rw [hpcnt, ← hid]
        rcases List.mem_append.mp ht with hx | hx
        · cases hx
        · rw [List.mem_singleton.mp hx, hh2]
      · rw [hmgr, hh1, hnil]
        exact List.pairwise_singleton _ _
      · rw [hmgr, hh5]
        refine ⟨⟨st, ?_, hh2⟩, ?_⟩
        · rw [hh1, hnil]
          exact List.mem_singleton.mpr rfl
        · intro t ht
          rw [hh1, hnil] at ht
          rcases List.mem_append.mp ht with hx | hx
          · cases hx
          · rw [List.mem_singleton.mp hx, hh3, hh2]
            simp
    | some a =>
      rw [hptr] at hcoh
      obtain ⟨⟨t0, ht0, ht0a⟩, hall⟩ := (hcoh : (∃ t ∈ sys.mgr.terminals, t.id = a) ∧
        ∀ t ∈ sys.mgr.terminals, (t.isActive = true ↔ t.id = a))
      have hne : ¬ sys.mgr.terminals = [] := by
        intro hx
        rw [hx] at ht0
        cases ht0
      have hptrne : ¬ sys.mgr.activeTerminalId = none := by
        rw [hptr]
        simp
      obtain ⟨st, hh1, hh2, hh3, hh4, hh5, _⟩ :=
        initializeTerminal_inactive sys.mgr id nm
          ((none : Option (Option String)).getD sys.mgr.currentProjectPath) hne hptrne
      have hstid : ¬ st.id = a := by
        rw [hh2, hid]
        intro hx
        have := hids t0 ht0
        rw [ht0a] at this
        omega
      refine ⟨?_, ?_, ?_, ?_⟩
      · intro t ht
        rw [hmgr] at ht ⊢
        rw [hh1] at ht
        rw [initializeTerminal_currentProjectPath]
        rcases List.mem_append.mp ht with hx | hx
        · exact hscope t hx
        · rw [List.mem_singleton.mp hx]
          exact hh4
      · intro t ht
        rw [hmgr] at ht
        rw [hh1] at ht
        rw [hpcnt]
        rcases List.mem_append.mp ht with hx | hx
        · exact Nat.le_trans (hids t hx) (Nat.le_succ _)
        · rw [List.mem_singleton.mp hx, hh2, hid]
      · rw [hmgr, hh1]
        refine List.pairwise_append.mpr ⟨hpw, List.pairwise_singleton _ _, ?_⟩
        intro x hx y hy
        rw [List.mem_singleton.mp hy, hh2, hid]
        have := hids x hx
        omega
      · rw [hmgr, hh5, hptr]
        refine ⟨⟨t0, ?_, ht0a⟩, ?_⟩
        · rw [hh1]
          exact List.mem_append.mpr (Or.inl ht0)
        · intro t ht
          rw [hh1] at ht
          rcases List.mem_append.mp ht with hx | hx
          · exact hall t hx
          · rw [List.mem_singleton.mp hx, hh3]
            exact iff_of_false (by simp) hstid

/-- Every single-scope-reachable system satisfies the invariant. -/
theorem reachS_inv {sys : System} (h : ReachS sys) : Inv sys := by
  induction h with
  | init =>
    refine ⟨?_, ?_, ?_, ?_⟩
    · intro t ht
      cases ht
    · intro t ht
      cases ht
    · exact List.Pairwise.nil
    · rfl
  | create cwd nm hs ih => exact inv_create ih cwd nm
  | close id hs ih => exact inv_close ih id
  | setActive id hs hw ih => exact inv_setActive ih id hw
  | rename id n hs ih => exact inv_rename ih id n
  | setView mode hs ih => exact inv_setView ih mode
  | setGrid layout hs ih => exact inv_setGrid ih layout

/-- In a list with pairwise-distinct ids containing an element of id `a`,
the id-`a` filter has exactly one element. -/
theorem length_filter_id_eq_one {l : List TermState} {a : Nat}
    (hpw : l.Pairwise (fun x y => x.id ≠ y.id)) {t : TermState}
    (ht : t ∈ l) (hta : t.id = a) :
    (l.filter (fun u => decide (u.id = a))).length = 1 := by
  induction l with
  | nil => cases ht
  | cons x xs ih =>
    rw [List.pairwise_cons] at hpw
    obtain ⟨hx, hxs⟩ := hpw
    rcases List.mem_cons.mp ht with heq | hmem
    · rw [List.filter_cons, if_pos (by rw [← heq]; simp [hta])]
      have hrest : xs.filter (fun u => decide (u.id = a)) = [] := by
        refine List.filter_eq_nil.mpr ?_
        intro u hu
        simp only [decide_eq_true_eq]
        intro hua
        exact hx u hu (by rw [← heq, hta, hua])
      rw [hrest]
      rfl
    · rw [List.filter_cons, if_neg (by
        simp only [decide_eq_true_eq]
        intro hxa
        exact hx t hmem (by rw [hxa, hta]))]
      exact ih hxs hmem

/-! ## Claim theorems -/

/-- C1: along every operation sequence from the fresh application state, at
most 9 sessions are ever live simultaneously (renderer session map and
process-side registry map alike), and a creation attempted while 9 sessions
are live fails with the resource-exhausted error and leaves the whole
system — session count and all session state — unchanged. -/
theorem c1_session_cap :
    (∀ ops : List Op,
      (run System.initial ops).mgr.terminals.length ≤ 9 ∧
      (run System.initial ops).pty.instances.length ≤ 9) ∧
    (∀ (sys : System) (opts : CreateOptions), 9 ≤ sys.mgr.terminals.length →
      createSession sys opts = .error "Maximum terminal limit reached" ∧
      step sys (.create opts) = sys) := by
  constructor
  · intro ops
    exact run_cap ops System.initial (by decide) (by decide)
  · intro sys opts h9
    have herr : createSession sys opts = .error "Maximum terminal limit reached" := by
      unfold createSession
      rw [if_pos (show sys.mgr.terminals.length ≥ maxTerminals from h9)]
    exact ⟨herr, step_create_error sys opts _ herr⟩

/-- Witness for C1: after nine creations the store is full; the tenth
attempt fails and changes nothing. -/
theorem c1_witness :
    9 ≤ (run System.initial nineCreates).mgr.terminals.length ∧
    createSession (run System.initial nineCreates) {} =
      .error "Maximum terminal limit reached" ∧
    step (run System.initial nineCreates) (.create {}) = run System.initial nineCreates := by
  have h9 : 9 ≤ (run System.initial nineCreates).mgr.terminals.length := by decide
  obtain ⟨he, hs⟩ := c1_session_cap.2 (run System.initial nineCreates) {} h9
  exact ⟨h9, he, hs⟩

/-- C4 counterexample: the second `createSession` succeeds (id 2) but the
new session is NOT marked active — the store still points at session 1 and
session 2 carries `isActive = false`, refuting "for every successful
createSession call, the newly created session is marked active". -/
theorem c4_counterexample :
    createSession (run System.initial [Op.create {}]) {} =
      .ok (2, run System.initial [Op.create {}, Op.create {}]) ∧
    (run System.initial [Op.create {}, Op.create {}]).mgr.activeTerminalId = some 1 ∧
    ∃ u ∈ (run System.initial [Op.create {}, Op.create {}]).mgr.terminals,
      u.id = 2 ∧ u.isActive = false :=
  ⟨by rfl, by decide, by decide⟩

/-- C4 (amended): a successful `createSession` appends the new session and
marks it active only when the store was empty or had no active pointer;
otherwise the new session starts inactive, the pointer is unchanged, and
every existing session (in any scope) keeps its `isActive` flag. -/
theorem c4_new_session_active_only_if_first (sys : System) (opts : CreateOptions)
    (id : Nat) (sys1 : System)
    (hfresh : ∀ t ∈ sys.mgr.terminals, t.id ≤ sys.pty.counter)
    (h : createSession sys opts = .ok (id, sys1)) :
    ∃ st : TermState,
      sys1.mgr.terminals = sys.mgr.terminals ++ [st] ∧ st.id = id ∧
      ((sys.mgr.terminals = [] ∨ sys.mgr.activeTerminalId = none) →
        st.isActive = true ∧ sys1.mgr.activeTerminalId = some id) ∧
      (¬(sys.mgr.terminals = [] ∨ sys.mgr.activeTerminalId = none) →
        st.isActive = false ∧ sys1.mgr.activeTerminalId = sys.mgr.activeTerminalId) := by
  obtain ⟨_, _, hid, hmgr, _, _⟩ := createSession_ok sys opts id sys1 h
  by_cases hc : sys.mgr.terminals = [] ∨ sys.mgr.activeTerminalId = none
  · have hfresh2 : ∀ t ∈ sys.mgr.terminals, ¬ t.id = id := by
      intro t ht heq
      have := hfresh t ht
      omega
    obtain ⟨st, h1, h2, h3, _, h5, _⟩ :=
      initializeTerminal_active sys.mgr id opts.name
        (opts.projectPath.getD sys.mgr.currentProjectPath) hfresh2 hc
    rw [hmgr]
    exact ⟨st, h1, h2, fun _ => ⟨h3, h5⟩, fun hn => absurd hc hn⟩
  · push_neg at hc
    obtain ⟨st, h1, h2, h3, _, h5, _⟩ :=
      initializeTerminal_inactive sys.mgr id opts.name
        (opts.projectPath.getD sys.mgr.currentProjectPath) hc.1 hc.2
    rw [hmgr]
    exact ⟨st, h1, h2, fun hcc => absurd hcc (by push_neg; exact hc), fun _ => ⟨h3, h5⟩⟩

/-- Witness for the amended C4 at the fresh system: the first created
session (id 1) is appended and activated. -/
theorem c4_witness :
    ∃ st : TermState,
      (run System.initial [Op.create {}]).mgr.terminals =
        System.initial.mgr.terminals ++ [st] ∧ st.id = 1 ∧
      ((System.initial.mgr.terminals = [] ∨ System.initial.mgr.activeTerminalId = none) →
        st.isActive = true ∧
        (run System.initial [Op.create {}]).mgr.activeTerminalId = some 1) ∧
      (¬(System.initial.mgr.terminals = [] ∨ System.initial.mgr.activeTerminalId = none) →
        st.isActive = false ∧
        (run System.initial [Op.create {}]).mgr.activeTerminalId =
          System.initial.mgr.activeTerminalId) :=
  c4_new_session_active_only_if_first System.initial {} 1
    (run System.initial [Op.create {}]) (by decide) (by rfl)

/-- C2 counterexample: create a global-scope session, switch to scope "b",
create a session there, switch back — scope "b" now has one live session
and ZERO sessions with `isActive = true` (switching back deactivated it),
refuting "for every scope with at least one live session, exactly one
session in that scope has isActive = true". -/
theorem c2_counterexample :
    ((run System.initial
      [Op.create {}, Op.switchScope (some "b"), Op.create {},
       Op.switchScope none]).mgr.getTerminalsByProject (some "b")).length = 1 ∧
    (((run System.initial
      [Op.create {}, Op.switchScope (some "b"), Op.create {},
       Op.switchScope none]).mgr.getTerminalsByProject (some "b")).filter
        (fun t => t.isActive)).length = 0 := by
  decide

/-- C2 (amended): along any sequence of SINGLE-SCOPE Session Store
operations — create in the current scope, close, set-active of a live
session, rename, set view mode, set grid layout; no scope switches and no
cross-scope creations — every scope with at least one live session has
exactly one session with `isActive = true`. -/
theorem c2_single_scope_exactly_one_active {sys : System} (h : ReachS sys)
    (p : Option String) (hlen : 1 ≤ (sys.mgr.getTerminalsByProject p).length) :
    ((sys.mgr.getTerminalsByProject p).filter (fun t => t.isActive)).length = 1 := by
  obtain ⟨hscope, hids, hpw, hcoh⟩ := reachS_inv h
  have hperm : List.Perm (sys.mgr.getTerminalsByProject p)
      (sys.mgr.terminals.filter (fun t => decide (t.projectPath = p))) :=
    List.perm_insertionSort _ _
  have hne : sys.mgr.getTerminalsByProject p ≠ [] := by
    intro hx
    rw [hx] at hlen
    cases hlen
  obtain ⟨t1, ht1⟩ := List.exists_mem_of_ne_nil _ hne
  have ht1f := hperm.mem_iff.mp ht1
  obtain ⟨ht1mem, ht1pb⟩ := List.mem_filter.mp ht1f
  have ht1p : t1.projectPath = p := by simpa using ht1pb
  have hpcur : p = sys.mgr.currentProjectPath := by
    rw [← ht1p]
    exact hscope t1 ht1mem
  have hfe : sys.mgr.terminals.filter (fun t => decide (t.projectPath = p)) =
      sys.mgr.terminals := by
    refine List.filter_eq_self.mpr ?_
    intro u hu
    simp only [decide_eq_true_eq]
    rw [hpcur]
    exact hscope u hu
  have hlength : ((sys.mgr.getTerminalsByProject p).filter (fun t => t.isActive)).length =
      ((sys.mgr.terminals).filter (fun t => t.isActive)).length := by
    have := (hperm.filter (fun t => t.isActive)).length_eq
    rw [this, hfe]
  rw [hlength]
  cases hptr : sys.mgr.activeTerminalId with
  | none =>
    rw [hptr] at hcoh
    have hnil : sys.mgr.terminals = [] := hcoh
    rw [hnil] at ht1mem
    cases ht1mem
  | some a =>
    rw [hptr] at hcoh
    obtain ⟨⟨t0, ht0, ht0a⟩, hall⟩ := (hcoh : (∃ t ∈ sys.mgr.terminals, t.id = a) ∧
      ∀ t ∈ sys.mgr.terminals, (t.isActive = true ↔ t.id = a))
    have hfc : sys.mgr.terminals.filter (fun t => t.isActive) =
        sys.mgr.terminals.filter (fun u => decide (u.id = a)) := by
      refine List.filter_congr ?_
      intro u hu
      by_cases hua : u.id = a
      · rw [(hall u hu).mpr hua]
        simp [hua]
      · have hfalse : u.isActive = false := by
          cases hb : u.isActive with
          | false => rfl
          | true => exact absurd ((hall u hu).mp hb) hua
        rw [hfalse]
        simp [hua]
    rw [hfc]
    exact length_filter_id_eq_one hpw ht0 ht0a

/-- Witness for the amended C2: after one single-scope creation the global
scope has exactly one active session. -/
theorem c2_witness :
    (((run System.initial [Op.create {}]).mgr.getTerminalsByProject none).filter
      (fun t => t.isActive)).length = 1 := by
  have hr : ReachS (run System.initial [Op.create {}]) := by
    show ReachS (step System.initial (.create {}))
    exact ReachS.create none none ReachS.init
  exact c2_single_scope_exactly_one_active hr none (by decide)

/-- C3 counterexample: with the current scope global (null), session 1
active in the global scope and session 2 created for scope "b", closing
session 1 leaves the global scope with no sessions — the claim demands the
active pointer become null — yet the code promotes session 2, a session of
a DIFFERENT scope, to active. -/
theorem c3_counterexample :
    (run System.initial
        [Op.create {}, Op.create { projectPath := some (some "b") },
         Op.close 1]).mgr.activeTerminalId = some 2 ∧
    (run System.initial
        [Op.create {}, Op.create { projectPath := some (some "b") },
         Op.close 1]).mgr.currentProjectPath = none ∧
    (run System.initial
        [Op.create {}, Op.create { projectPath := some (some "b") },
         Op.close 1]).mgr.terminals.filter (fun t => decide (t.projectPath = none)) = [] ∧
    ∃ u ∈ (run System.initial
        [Op.create {}, Op.create { projectPath := some (some "b") },
         Op.close 1]).mgr.terminals, u.id = 2 ∧ u.projectPath = some "b" ∧
      u.isActive = true := by
  decide

/-- C3 (amended): closing the active session removes it (it disappears from
`getVisibleSessions`) and promotes the LAST remaining entry of the session
map — the most-recently-created remaining session across ALL scopes, not
restricted to the closed session's scope — or nulls the pointer only when
no session at all remains; an unexpected process-exit event funnels through
exactly the same `closeTerminal` path. -/
theorem c3_close_promotes_last_remaining (m : Manager) (id : Nat)
    (hlive : m.terminals.any (fun t => decide (t.id = id)) = true)
    (hactive : m.activeTerminalId = some id)
    (hsorted : m.terminals.Pairwise (fun a b => a.createdAt ≤ b.createdAt)) :
    (m.terminals.filter (fun t => decide (¬ t.id = id)) = [] →
      (closeTerminal m id).activeTerminalId = none) ∧
    (∀ tl, (m.terminals.filter (fun t => decide (¬ t.id = id))).getLast? = some tl →
      (closeTerminal m id).activeTerminalId = some tl.id ∧
      (∃ u ∈ (closeTerminal m id).terminals, u.id = tl.id ∧ u.isActive = true) ∧
      (∀ u ∈ m.terminals.filter (fun t => decide (¬ t.id = id)),
        u.createdAt ≤ tl.createdAt)) ∧
    (∀ u ∈ getTerminalStates (closeTerminal m id), ¬ u.id = id) ∧
    (∀ (mm : Manager) (i : Nat), handleTerminalDestroyed mm i = closeTerminal mm i) := by
  have hnotin : (closeTerminal m id).terminals.any (fun t => decide (t.id = id)) = false := by
    rw [closeTerminal_any_id_false, if_pos hlive]
  refine ⟨?_, ?_, ?_, ?_⟩
  · intro hnil
    unfold closeTerminal
    rw [if_pos hlive]
    dsimp only [notifyStateChange]
    rw [if_pos (show m.activeTerminalId = some id from hactive)]
    rw [hnil]
    rfl
  · intro tl hLast
    have hmem : tl ∈ m.terminals.filter (fun t => decide (¬ t.id = id)) := by
      obtain ⟨l2, hl2⟩ := List.getLast?_eq_some_iff.mp hLast
      rw [hl2]
      exact List.mem_append.mpr (Or.inr (List.mem_singleton.mpr rfl))
    refine ⟨?_, ?_, ?_⟩
    · unfold closeTerminal
      rw [if_pos hlive]
      dsimp only [notifyStateChange]
      rw [if_pos (show m.activeTerminalId = some id from hactive)]
      rw [hLast]
      dsimp only
      rw [setActiveTerminal_eq]
    · unfold closeTerminal
      rw [if_pos hlive]
      dsimp only [notifyStateChange]
      rw [if_pos (show m.activeTerminalId = some id from hactive)]
      rw [hLast]
      dsimp only
      rw [setActiveTerminal_eq]
      dsimp only
      refine ⟨actUpd tl.id (deactUpd (some tl.id) tl), List.mem_map.mpr ⟨tl, hmem, rfl⟩, ?_, ?_⟩
      · rw [actUpd_id, deactUpd_id]
      · unfold deactUpd actUpd
        dsimp only
        rw [if_pos rfl]
        rw [if_pos rfl]
    · intro u hu
      have hsub : List.Sublist (m.terminals.filter (fun t => decide (¬ t.id = id)))
          m.terminals := List.filter_sublist _
      have hpw : (m.terminals.filter (fun t => decide (¬ t.id = id))).Pairwise
          (fun a b => a.createdAt ≤ b.createdAt) := hsorted.sublist hsub
      obtain ⟨l2, hl2⟩ := List.getLast?_eq_some_iff.mp hLast
      rw [hl2] at hpw hu
      rcases List.mem_append.mp hu with h2 | h2
      · have := (List.pairwise_append.mp hpw).2.2
        exact this u h2 tl (List.mem_singleton.mpr rfl)
      · rw [List.mem_singleton.mp h2]
  · intro u hu
    have hu2 : u ∈ (closeTerminal m id).terminals := by
      have h1 : u ∈ sortByCreatedAt ((closeTerminal m id).terminals.filter
          (fun t => decide (t.projectPath = (closeTerminal m id).currentProjectPath))) := hu
      have h2 := (List.mem_insertionSort _).mp h1
      exact (List.mem_filter.mp h2).1
    intro heq
    have := List.any_eq_false.mp hnotin u hu2
    simp [heq] at this
  · intro mm i
    unfold handleTerminalDestroyed
    by_cases h : mm.terminals.any (fun t => decide (t.id = i)) = true
    · rw [if_pos h]
    · have hf : mm.terminals.any (fun t => decide (t.id = i)) = false := by simpa using h
      rw [if_neg h, closeTerminal_not_present mm i hf]

/-- Witness for the amended C3: closing the active session 1 in a fresh
two-session store promotes session 2 (the last remaining map entry). -/
theorem c3_witness :
    (closeTerminal (run System.initial [Op.create {}, Op.create {}]).mgr 1).activeTerminalId =
      some 2 ∧
    ∃ u ∈ (closeTerminal (run System.initial [Op.create {}, Op.create {}]).mgr 1).terminals,
      u.id = 2 ∧ u.isActive = true := by
  have h := c3_close_promotes_last_remaining
    (run System.initial [Op.create {}, Op.create {}]).mgr 1 (by decide) (by decide) (by decide)
  have hb := h.2.1 ⟨2, "Terminal 2", none, false, 1, none⟩ (by decide)
  exact ⟨hb.1, hb.2.1⟩

/-- C5 counterexample: the very first `createSession` emits TWO
state-change notifications (one from the internal `setActiveTerminal`, one
from `_initializeTerminal` itself), refuting "exactly one notification per
logical operation". -/
theorem c5_counterexample :
    (run System.initial [Op.create {}]).mgr.notifyCount = 2 := by
  decide

/-- C5 (amended): `setActiveSession`, `setViewMode`, `setGridLayout` emit
exactly one notification; `rename` emits one when the session is live and
none otherwise; `closeSession` of a live session emits two when it closes
the active session and another session remains (the internal re-activation
notifies as well), one otherwise, and none for an unknown id; a successful
`createSession` emits two when the new session gets activated and one
otherwise, while a failed creation emits none; `switchScope` emits one or
two. -/
theorem c5_notifications_per_operation :
    (∀ (m : Manager) (id : Nat),
      (setActiveTerminal m id).notifyCount = m.notifyCount + 1) ∧
    (∀ (m : Manager) (mode : String),
      (setViewMode m mode).notifyCount = m.notifyCount + 1) ∧
    (∀ (m : Manager) (layout : String),
      (setGridLayout m layout).notifyCount = m.notifyCount + 1) ∧
    (∀ (m : Manager) (id : Nat) (n : String),
      (renameTerminal m id n).notifyCount = m.notifyCount +
        (if m.terminals.any (fun t => decide (t.id = id)) = true then 1 else 0)) ∧
    (∀ (m : Manager) (id : Nat), m.terminals.any (fun t => decide (t.id = id)) = true →
      (closeTerminal m id).notifyCount = m.notifyCount +
        (if m.activeTerminalId = some id ∧
            m.terminals.filter (fun t => decide (¬ t.id = id)) ≠ [] then 2 else 1)) ∧
    (∀ (m : Manager) (id : Nat), m.terminals.any (fun t => decide (t.id = id)) = false →
      (closeTerminal m id).notifyCount = m.notifyCount) ∧
    (∀ (sys : System) (opts : CreateOptions) (id : Nat) (sys1 : System),
      createSession sys opts = .ok (id, sys1) →
      (∀ t ∈ sys.mgr.terminals, t.id ≤ sys.pty.counter) →
      sys1.mgr.notifyCount = sys.mgr.notifyCount +
        (if sys.mgr.terminals = [] ∨ sys.mgr.activeTerminalId = none then 2 else 1)) ∧
    (∀ (m : Manager) (projectPath : Option String),
      (setCurrentProject m projectPath).notifyCount = m.notifyCount + 1 ∨
      (setCurrentProject m projectPath).notifyCount = m.notifyCount + 2) ∧
    (∀ (sys : System) (opts : CreateOptions) (e : String),
      createSession sys opts = .error e →
      (step sys (.create opts)).mgr.notifyCount = sys.mgr.notifyCount) := by
  refine ⟨?_, ?_, ?_, ?_, closeTerminal_notifyCount, ?_, ?_,
    setCurrentProject_notifyCount, ?_⟩
  · intro m id
    rw [setActiveTerminal_eq]
  · intro m mode
    rfl
  · intro m layout
    rfl
  · intro m id n
    unfold renameTerminal
    by_cases h : m.terminals.any (fun t => decide (t.id = id)) = true
    · rw [if_pos h, if_pos h]
      rfl
    · rw [if_neg h, if_neg h]
      rfl
  · intro m id h
    exact congrArg Manager.notifyCount (closeTerminal_not_present m id h)
  · intro sys opts id sys1 h hfresh
    obtain ⟨_, _, hid, hmgr, _, _⟩ := createSession_ok sys opts id sys1 h
    by_cases hc : sys.mgr.terminals = [] ∨ sys.mgr.activeTerminalId = none
    · have hfresh2 : ∀ t ∈ sys.mgr.terminals, ¬ t.id = id := by
        intro t ht heq
        have := hfresh t ht
        omega
      obtain ⟨st, _, _, _, _, _, h6⟩ :=
        initializeTerminal_active sys.mgr id opts.name
          (opts.projectPath.getD sys.mgr.currentProjectPath) hfresh2 hc
      rw [hmgr, h6, if_pos hc]
    · push_neg at hc
      obtain ⟨st, _, _, _, _, _, h6⟩ :=
        initializeTerminal_inactive sys.mgr id opts.name
          (opts.projectPath.getD sys.mgr.currentProjectPath) hc.1 hc.2
      rw [hmgr, h6, if_neg (by push_neg; exact hc)]
  · intro sys opts e h
    rw [step_create_error sys opts e h]

/-- Witness for the amended C5: renaming the live session 1 notifies once;
closing active session 1 in a two-session store notifies twice; the
failing creation at the nine-session cap notifies not at all. -/
theorem c5_witness :
    (renameTerminal sampleMgr 1 "db").notifyCount = sampleMgr.notifyCount +
      (if sampleMgr.terminals.any (fun t => decide (t.id = 1)) = true then 1 else 0) ∧
    (closeTerminal (run System.initial [Op.create {}, Op.create {}]).mgr 1).notifyCount =
      (run System.initial [Op.create {}, Op.create {}]).mgr.notifyCount +
      (if (run System.initial [Op.create {}, Op.create {}]).mgr.activeTerminalId = some 1 ∧
          (run System.initial [Op.create {}, Op.create {}]).mgr.terminals.filter
            (fun t => decide (¬ t.id = 1)) ≠ [] then 2 else 1) ∧
    (step (run System.initial nineCreates) (.create {})).mgr.notifyCount =
      (run System.initial nineCreates).mgr.notifyCount :=
  ⟨c5_notifications_per_operation.2.2.2.1 sampleMgr 1 "db",
   c5_notifications_per_operation.2.2.2.2.1
     (run System.initial [Op.create {}, Op.create {}]).mgr 1 (by decide),
   c5_notifications_per_operation.2.2.2.2.2.2.2.2
     (run System.initial nineCreates) {} "Maximum terminal limit reached" (by rfl)⟩

/-- The fallback of `restoreProjectSession` activates the head of the
scope's creation-ordered session list — the oldest by `createdAt` — or
clears the pointer when the scope is empty. -/
theorem restoreFallback_spec (m1 : Manager) (p : Option String) :
    ((restoreFallback m1 p).getTerminalsByProject p = [] →
      (restoreFallback m1 p).activeTerminalId = none) ∧
    (∀ t ts, (restoreFallback m1 p).getTerminalsByProject p = t :: ts →
      (restoreFallback m1 p).activeTerminalId = some t.id ∧
      ∀ u ∈ (restoreFallback m1 p).getTerminalsByProject p,
        t.createdAt ≤ u.createdAt) := by
  unfold restoreFallback
  cases hl : (m1.getTerminalsByProject p).head? with
  | none =>
    have hnil : m1.getTerminalsByProject p = [] := List.head?_eq_none_iff.mp hl
    dsimp only
    constructor
    · intro _
      rfl
    · intro t ts heq
      have heq2 : m1.getTerminalsByProject p = t :: ts := heq
      rw [hnil] at heq2
      cases heq2
  | some t0 =>
    obtain ⟨rest0, hl2⟩ := List.head?_eq_some_iff.mp hl
    dsimp only
    rw [setActiveTerminal_eq]
    have hvis : Manager.getTerminalsByProject
        { m1 with
          terminals := m1.terminals.map
            (fun u => actUpd t0.id (deactUpd m1.activeTerminalId u)),
          activeTerminalId := some t0.id,
          notifyCount := m1.notifyCount + 1 } p =
        (m1.getTerminalsByProject p).map
          (fun u => actUpd t0.id (deactUpd m1.activeTerminalId u)) :=
      sortFilter_map m1.terminals
        (fun u => actUpd t0.id (deactUpd m1.activeTerminalId u))
        (fun u => (actUpd_projectPath _ _).trans (deactUpd_projectPath _ _))
        (fun u => (actUpd_createdAt _ _).trans (deactUpd_createdAt _ _)) p
    have hsorted : List.Sorted (fun a b : TermState => a.createdAt ≤ b.createdAt)
        (t0 :: rest0) := by
      rw [← hl2]
      exact List.sorted_insertionSort _ _
    constructor
    · intro hnil
      rw [hvis, hl2, List.map_cons] at hnil
      cases hnil
    · intro t ts heq
      rw [hvis, hl2, List.map_cons] at heq
      have h1 : actUpd t0.id (deactUpd m1.activeTerminalId t0) = t :=
        (List.cons_eq_cons.mp heq).1
      have htid : t.id = t0.id := by
        rw [← h1, actUpd_id, deactUpd_id]
      have htca : t.createdAt = t0.createdAt := by
        rw [← h1, actUpd_createdAt, deactUpd_createdAt]
      refine ⟨by rw [htid], ?_⟩
      intro u hu
      rw [hvis, hl2] at hu
      obtain ⟨u0, hu0, hfu⟩ := List.mem_map.mp hu
      have huca : u.createdAt = u0.createdAt := by
        rw [← hfu, actUpd_createdAt, deactUpd_createdAt]
      rw [htca, huca]
      rcases List.mem_cons.mp hu0 with h | h
      · rw [h]
      · exact List.rel_of_sorted_cons hsorted u0 h

/-- C6: when the persisted `activeSessionId` for the target scope does not
denote a live session of that scope, `switchScope` (`setCurrentProject`)
still totals — no exception path exists — and falls back to activating the
oldest (earliest `createdAt`) live session of the target scope, or sets the
pointer to null when the scope has no live sessions. -/
theorem c6_switch_stale_falls_back_to_oldest (m : Manager) (p : Option String)
    (hstale : ∀ d aid, storeGet (afterSave m p).sessions (sessionKey p) = some d →
      d.activeTerminalId = some aid →
      ∀ t ∈ m.terminals, t.id = aid → ¬ t.projectPath = p) :
    ((setCurrentProject m p).getTerminalsByProject p = [] →
      (setCurrentProject m p).activeTerminalId = none) ∧
    (∀ t ts, (setCurrentProject m p).getTerminalsByProject p = t :: ts →
      (setCurrentProject m p).activeTerminalId = some t.id ∧
      ∀ u ∈ (setCurrentProject m p).getTerminalsByProject p,
        t.createdAt ≤ u.createdAt) := by
  have hM0t : ({ afterSave m p with currentProjectPath := p } : Manager).terminals =
      m.terminals := by
    show (afterSave m p).terminals = m.terminals
    unfold afterSave
    split
    · exact saveProjectSession_terminals m m.currentProjectPath
    · rfl
  have hstale2 : ∀ d aid,
      storeGet ({ afterSave m p with currentProjectPath := p } : Manager).sessions
        (sessionKey p) = some d →
      d.activeTerminalId = some aid →
      ∀ t ∈ ({ afterSave m p with currentProjectPath := p } : Manager).terminals,
        t.id = aid → ¬ t.projectPath = p := by
    intro d aid hst had t ht htid
    rw [hM0t] at ht
    exact hstale d aid hst had t ht htid
  have hre : setCurrentProject m p =
      notifyStateChange (restoreFallback
        (restoreNames { afterSave m p with currentProjectPath := p } p) p) := by
    unfold setCurrentProject
    rw [restore_stale _ p hstale2]
  have hspec := restoreFallback_spec
    (restoreNames { afterSave m p with currentProjectPath := p } p) p
  constructor
  · intro h0
    rw [hre] at h0 ⊢
    exact hspec.1 h0
  · intro t ts heq
    rw [hre] at heq ⊢
    exact hspec.2 t ts heq

/-- Witness for C6: `staleMgr` persists active id 99 for scope "p" while
sessions 1 and 2 (both scope "p") are live; switching to "p" activates the
oldest session 1. -/
theorem c6_witness :
    (setCurrentProject staleMgr (some "p")).activeTerminalId = some 1 ∧
    ∀ u ∈ (setCurrentProject staleMgr (some "p")).getTerminalsByProject (some "p"),
      (0 : Nat) ≤ u.createdAt := by
  have hstale : ∀ d aid,
      storeGet (afterSave staleMgr (some "p")).sessions (sessionKey (some "p")) = some d →
      d.activeTerminalId = some aid →
      ∀ t ∈ staleMgr.terminals, t.id = aid → ¬ t.projectPath = some "p" := by
    intro d aid hst had t ht htid
    injection hst with hdd
    rw [← hdd] at had
    injection had with haid
    rw [← haid] at htid
    revert t
    decide
  have h := c6_switch_stale_falls_back_to_oldest staleMgr (some "p") hstale
  have hb := h.2
    { id := 1, name := "Terminal 1", customName := none, isActive := true,
      createdAt := 0, projectPath := some "p" }
    [{ id := 2, name := "Terminal 2", customName := none, isActive := false,
       createdAt := 1, projectPath := some "p" }]
    (by decide)
  exact ⟨hb.1, hb.2⟩

/-- C7: the PTY Registry operations `write`, `resize` and `destroy` on a
session id that is not registered are silent no-ops — no error, registry
state unchanged, no byte or signal delivered to any process — and `destroy`
is idempotent; the Session Store's `closeTerminal` is likewise idempotent,
so closing the same session twice has the same observable effect as closing
it once. -/
theorem c7_unknown_session_silent_noop :
    (∀ (s : PtyState) (id : Nat) (data : String), s.has id = false →
      writeToTerminal s id data = (s, none)) ∧
    (∀ (s : PtyState) (id cols rows : Nat), s.has id = false →
      resizeTerminal s id cols rows = (s, none)) ∧
    (∀ (s : PtyState) (id : Nat), s.has id = false → destroyTerminal s id = s) ∧
    (∀ (s : PtyState) (id : Nat),
      destroyTerminal (destroyTerminal s id) id = destroyTerminal s id) ∧
    (∀ (m : Manager) (id : Nat),
      closeTerminal (closeTerminal m id) id = closeTerminal m id) := by
  refine ⟨?_, ?_, ?_, ?_, ?_⟩
  · intro s id d h
    simp [writeToTerminal, h]
  · intro s id c r h
    simp [resizeTerminal, h]
  · intro s id h
    simp [destroyTerminal, h]
  · intro s id
    by_cases h : s.has id = true
    · have h1 : destroyTerminal s id =
          { s with instances := s.instances.filter (fun p => decide (¬ p.1 = id)) } := by
        simp [destroyTerminal, h]
      rw [h1]
      have h2 : PtyState.has
          { s with instances := s.instances.filter (fun p => decide (¬ p.1 = id)) } id = false :=
        any_key_filter_self _ _
      simp [destroyTerminal, h2]
    · have hf : s.has id = false := by simpa using h
      simp [destroyTerminal, hf]
  · intro m id
    by_cases h : m.terminals.any (fun t => decide (t.id = id)) = true
    · refine closeTerminal_not_present _ _ ?_
      rw [closeTerminal_any_id_false, if_pos h]
    · have hf : m.terminals.any (fun t => decide (t.id = id)) = false := by simpa using h
      rw [closeTerminal_not_present m id hf, closeTerminal_not_present m id hf]

/-- Witness for C7 at concrete inputs: the empty registry does not hold id
5, and a store holding only terminal 3 is closed twice with the same result
as once. -/
theorem c7_witness :
    writeToTerminal PtyState.initial 5 "ls" = (PtyState.initial, none) ∧
    resizeTerminal PtyState.initial 5 80 24 = (PtyState.initial, none) ∧
    destroyTerminal PtyState.initial 5 = PtyState.initial ∧
    closeTerminal (closeTerminal Manager.initial 3) 3 = closeTerminal Manager.initial 3 :=
  ⟨c7_unknown_session_silent_noop.1 PtyState.initial 5 "ls" (by decide),
   c7_unknown_session_silent_noop.2.1 PtyState.initial 5 80 24 (by decide),
   c7_unknown_session_silent_noop.2.2.1 PtyState.initial 5 (by decide),
   c7_unknown_session_silent_noop.2.2.2.2 Manager.initial 3⟩

/-- C8: `saveProjectSession` for a scope with zero live sessions performs no
write at all — the manager (in particular the whole persisted store, so the
record of every scope) is unchanged. -/
theorem c8_save_empty_scope_noop (m : Manager) (projectPath : Option String)
    (h : m.getTerminalsByProject projectPath = []) :
    saveProjectSession m projectPath = m ∧
    ∀ k, storeGet (saveProjectSession m projectPath).sessions k = storeGet m.sessions k := by
  have h1 : saveProjectSession m projectPath = m := by
    unfold saveProjectSession
    rw [h]
    rfl
  exact ⟨h1, fun k => by rw [h1]⟩

/-- C9: for a live session, `renameTerminal(id, newName)` overwrites BOTH
the `customName` field and the auto-generated `name` field with the new
name, so the display rule `customName ?? name` yields the new name and the
original default name survives in neither field; `restoreProjectSession`
applies the same double overwrite from the persisted name map. -/
theorem c9_rename_overwrites_both_fields :
    (∀ (m : Manager) (id : Nat) (newName : String) (t : TermState),
      t ∈ m.terminals → t.id = id →
      ∃ u ∈ (renameTerminal m id newName).terminals,
        u.id = id ∧ u.name = newName ∧ u.customName = some newName ∧
        displayName u = newName) ∧
    (∀ (m : Manager) (projectPath : Option String) (d : SessionData)
       (t : TermState) (n : String),
      storeGet m.sessions (sessionKey projectPath) = some d →
      t ∈ m.terminals → t.projectPath = projectPath →
      namesGet d.terminalNames t.id = some n →
      ∃ u ∈ (restoreProjectSession m projectPath).terminals,
        u.id = t.id ∧ u.name = n ∧ u.customName = some n ∧ displayName u = n) := by
  constructor
  · intro m id newName t ht hid
    have hany : m.terminals.any (fun t => decide (t.id = id)) = true :=
      List.any_eq_true.mpr ⟨t, ht, by simp [hid]⟩
    unfold renameTerminal
    rw [if_pos hany]
    dsimp only [notifyStateChange]
    refine ⟨{ t with customName := some newName, name := newName }, ?_, hid, rfl, rfl, rfl⟩
    exact List.mem_map.mpr ⟨t, ht, by rw [if_pos hid]⟩
  · intro m projectPath d t n hstore ht hscope hnames
    obtain ⟨g, hg, hgt⟩ := restoreProjectSession_terminals m projectPath
    have h1 := restoreNames_terminals m projectPath d hstore
    have hv : ({ t with customName := some n, name := n } : TermState) ∈
        (restoreNames m projectPath).terminals := by
      rw [h1]
      refine List.mem_map.mpr ⟨t, ht, ?_⟩
      rw [if_pos hscope, hnames]
    refine ⟨g { t with customName := some n, name := n }, ?_, ?_, ?_, ?_, ?_⟩
    · rw [hgt]
      exact List.mem_map.mpr ⟨_, hv, rfl⟩
    · exact (hg _).1
    · exact (hg _).2.1
    · exact (hg _).2.2.1
    · show (g { t with customName := some n, name := n }).customName.getD
        (g { t with customName := some n, name := n }).name = n
      rw [(hg _).2.2.1]
      rfl

/-- Witness for C9: renaming the sole live terminal to "db" leaves a
session whose two name fields are both "db", and restoring a scope whose
record maps terminal 1 to "Build" double-overwrites the live terminal. -/
theorem c9_witness :
    (∃ u ∈ (renameTerminal sampleMgr 1 "db").terminals,
      u.id = 1 ∧ u.name = "db" ∧ u.customName = some "db" ∧ displayName u = "db") ∧
    (∃ u ∈ (restoreProjectSession sampleMgrSaved none).terminals,
      u.id = 1 ∧ u.name = "Build" ∧ u.customName = some "Build" ∧
        displayName u = "Build") :=
  ⟨c9_rename_overwrites_both_fields.1 sampleMgr 1 "db" sampleTerm (by decide) rfl,
   (by
      have h := c9_rename_overwrites_both_fields.2 sampleMgrSaved none
        { activeTerminalId := some 1, viewMode := "tabs", gridLayout := "2x2",
          terminalNames := [(1, "Build")] }
        sampleTerm "Build" (by decide) (by decide) rfl (by decide)
      simpa [sampleTerm] using h)⟩

/-- C10: calling `setActiveTerminal` with an id that is no live session
(starting from a state whose `isActive` flags agree with the pointer) still
deactivates the previously active session and repoints `activeTerminalId`
at the unknown id, leaving a non-null active pointer while no live session
has `isActive = true`. -/
theorem c10_setActive_unknown_id (m : Manager) (id : Nat)
    (hunknown : m.terminals.any (fun t => decide (t.id = id)) = false)
    (hcoh : ∀ t ∈ m.terminals, (t.isActive = true ↔ some t.id = m.activeTerminalId)) :
    (setActiveTerminal m id).activeTerminalId = some id ∧
    ∀ t ∈ (setActiveTerminal m id).terminals, t.isActive = false := by
  rw [setActiveTerminal_eq]
  refine ⟨rfl, ?_⟩
  intro u hu
  obtain ⟨t, ht, rfl⟩ := List.mem_map.mp hu
  have hne : ¬ t.id = id := by
    intro he
    have hx : m.terminals.any (fun t => decide (t.id = id)) = true :=
      List.any_eq_true.mpr ⟨t, ht, by simp [he]⟩
    rw [hunknown] at hx
    cases hx
  have hdid : (deactUpd m.activeTerminalId t).id = t.id := deactUpd_id _ _
  unfold actUpd
  rw [if_neg (by rw [hdid]; exact hne)]
  have hc := hcoh t ht
  cases hptr : m.activeTerminalId with
  | none =>
    rw [hptr] at hc
    unfold deactUpd
    cases hb : t.isActive with
    | false => rfl
    | true => exact absurd (hc.mp hb) (by simp)
  | some p =>
    rw [hptr] at hc
    unfold deactUpd
    dsimp only
    by_cases hp : t.id = p
    · rw [if_pos hp]
    · rw [if_neg hp]
      cases hb : t.isActive with
      | false => rfl
      | true =>
        have := hc.mp hb
        exact absurd (Option.some.inj this) hp

/-- Witness for C10: the one-session store with session 1 active; setting
the unknown id 99 active yields pointer 99 with no active session. -/
theorem c10_witness :
    (setActiveTerminal sampleMgr 99).activeTerminalId = some 99 ∧
    ∀ t ∈ (setActiveTerminal sampleMgr 99).terminals, t.isActive = false :=
  c10_setActive_unknown_id sampleMgr 99 (by decide) (by decide)

/-- Witness for C8: a store with a previously persisted record for scope
`p` but no live sessions; saving scope `p` leaves everything unchanged. -/
theorem c8_witness :
    saveProjectSession
      { Manager.initial with sessions :=
          [("p", { activeTerminalId := some 1, viewMode := "grid",
                   gridLayout := "3x3", terminalNames := [(1, "Build")] })] }
      (some "p") =
      { Manager.initial with sessions :=
          [("p", { activeTerminalId := some 1, viewMode := "grid",
                   gridLayout := "3x3", terminalNames := [(1, "Build")] })] } :=
  (c8_save_empty_scope_noop _ (some "p") (by decide)).1

end Frame
